import Mathlib

/-!
# localpulse: metrics window, endpoint health, load testers and configuration

A shallow embedding of `monitor/metrics.go`, `monitor/endpoint.go`,
`monitor/tester.go`, `config/config.go` and `Truncate` of `ui/widgets.go`.

Modelling conventions.

* `time.Duration`, `int64` and `int` values are integers of `Int`; a duration is a
  number of nanoseconds.  A sum or difference that a caller-supplied value can take
  out of the 64 bit range (`TotalLatency`, `TotalBytes`, `rps ± 5`,
  `concurrency ± 1`) wraps as in Go, by `wrap64`.  The counters that grow by one per
  call (`TotalRequests`, `TotalErrors`, the histogram counts) are not wrapped: they
  would need `2^63` calls to leave the range.
* `time.Time` is an integer number of nanoseconds; every call of `time.Now()` is an
  explicit argument `now` of the operation that makes it.
* A `float64` is the rational it denotes; every `float64` operation is the exact
  operation followed by `f64`, the rounding to the nearest number with a 53 bit
  mantissa, ties to even.  The exponent range is not modelled (no infinity, no
  subnormal number): the magnitudes that occur lie between `2^-64` and `2^94`.
* The mutex is not modelled: every operation holds the lock for its whole body, so
  an operation is a function from the state before to the state after.
* `map[int]int64` is an association list from status code to count; a key that is
  absent counts as `0`, as a Go map read does.
* An index out of range (a Go panic) is `none`.
-/

namespace LocalPulse

/-! ## Endpoint status (`monitor/endpoint.go`) -/

/-- The four values of `EndpointStatus`. -/
inductive EndpointStatus where
  | StatusHealthy
  | StatusSlow
  | StatusDown
  | StatusUnknown
  deriving DecidableEq, Repr

/-- Nanoseconds in `time.Millisecond`. -/
def Millisecond : Int := 1000000

/-- Nanoseconds in `time.Second`. -/
def Second : Int := 1000000000

/-- The value of an `int64` (or 64-bit `int`) computation whose exact result is `x`:
the representative of `x` modulo `2^64` in `[-2^63, 2^63)`. -/
def wrap64 (x : Int) : Int :=
  (x + 9223372036854775808) % 18446744073709551616 - 9223372036854775808

/-- The largest `int64`. -/
def MaxInt64 : Int := 9223372036854775807

/-- `Endpoint.DetermineStatus`: the receiver is not read; `err` is `none` for a nil
error and `some msg` otherwise. -/
def DetermineStatus (latency : Int) (err : Option String) : EndpointStatus :=
  if err ≠ none then EndpointStatus.StatusDown
  else if latency > 500 * Millisecond then EndpointStatus.StatusSlow
  else EndpointStatus.StatusHealthy

/-! ## Metrics window (`monitor/metrics.go`) -/

/-- The struct `RequestResult`. -/
structure RequestResult where
  Timestamp : Int
  Latency : Int
  StatusCode : Int
  Size : Int
  IsError : Bool
  ErrorMessage : String
  deriving DecidableEq, Repr

/-- The struct `Metrics`, without its mutex. -/
structure Metrics where
  TotalRequests : Int
  TotalErrors : Int
  TotalBytes : Int
  TotalLatency : Int
  RecentResults : List RequestResult
  maxRecentResults : Int
  Latencies : List Int
  maxLatencies : Int
  StatusCodeCounts : List (Int × Int)
  WindowStart : Int
  deriving DecidableEq, Repr

/-- Read of `StatusCodeCounts[code]`: the stored count, `0` when the key is absent. -/
def countOf : List (Int × Int) → Int → Int
  | [], _ => 0
  | (k, v) :: rest, code => if k = code then v else countOf rest code

/-- The statement `StatusCodeCounts[code]++`. -/
def bump : List (Int × Int) → Int → List (Int × Int)
  | [], code => [(code, 1)]
  | (k, v) :: rest, code => if k = code then (k, v + 1) :: rest else (k, v) :: bump rest code

/-- `NewMetrics(windowSize)`, created at time `now`. -/
def NewMetrics (windowSize : Int) (now : Int) : Metrics :=
  let windowSize := if windowSize ≤ 0 then 1000 else windowSize
  { TotalRequests := 0
    TotalErrors := 0
    TotalBytes := 0
    TotalLatency := 0
    RecentResults := []
    maxRecentResults := windowSize
    Latencies := []
    maxLatencies := windowSize
    StatusCodeCounts := []
    WindowStart := now }

/-- `Metrics.Record(result)`. -/
def Record (m : Metrics) (result : RequestResult) : Metrics :=
  let m := { m with TotalRequests := m.TotalRequests + 1
                    TotalLatency := wrap64 (m.TotalLatency + result.Latency) }
  let m := if result.IsError then { m with TotalErrors := m.TotalErrors + 1 }
           else { m with StatusCodeCounts := bump m.StatusCodeCounts result.StatusCode
                         TotalBytes := wrap64 (m.TotalBytes + result.Size) }
  let m := { m with Latencies := m.Latencies ++ [result.Latency] }
  let m := if (m.Latencies.length : Int) > m.maxLatencies
           then { m with Latencies := m.Latencies.drop 1 } else m
  let m := { m with RecentResults := m.RecentResults ++ [result] }
  if (m.RecentResults.length : Int) > m.maxRecentResults
  then { m with RecentResults := m.RecentResults.drop 1 } else m

/-- `Metrics.Reset()`, called at time `now`. -/
def Reset (m : Metrics) (now : Int) : Metrics :=
  { m with TotalRequests := 0
           TotalErrors := 0
           TotalBytes := 0
           TotalLatency := 0
           RecentResults := []
           Latencies := []
           StatusCodeCounts := []
           WindowStart := now }

/-- The struct `Stats`. -/
structure Stats where
  P50 : Int
  P95 : Int
  P99 : Int
  AvgLatency : Int
  MinLatency : Int
  MaxLatency : Int
  Throughput : ℚ
  ErrorRate : ℚ
  AvgSize : Int
  TotalRequests : Int
  TotalErrors : Int
  StatusCode2xx : Int
  StatusCode4xx : Int
  StatusCode5xx : Int

/-- The value `math.Ceil(a / 100)` for an integer `a`, in integer arithmetic
(`/` on `Int` rounds down for a positive divisor). -/
def ceilDiv100 (a : Int) : Int := -((-a) / 100)

/-- `percentile(sorted, p)` for an integral percentage `p`.  The source computes
`math.Ceil(float64(len(sorted)-1)*p/100)` in `float64`; for the integral `p` of the
call sites (50, 95, 99) and a slice shorter than `2^46` the product is an exact
integer and the rounded quotient has the ceiling of the exact one, which `ceilDiv100`
computes.  The source then subtracts `1`, replaces a negative index by `0`, and
indexes the slice. -/
def percentile (sorted : List Int) (p : Int) : Option Int :=
  if sorted.length = 0 then some 0
  else if sorted.length = 1 then sorted[0]?
  else
    let idx : Int := ceilDiv100 (((sorted.length : Int) - 1) * p) - 1
    let idx : Int := if idx < 0 then 0 else idx
    sorted[idx.toNat]?

/-- Go integer division `a / b` for a divisor `b > 0` (it truncates toward zero). -/
def goDiv (a b : Int) : Int := Int.tdiv a b

/-- Rounding of a rational to the nearest integer, a tie going to the even one. -/
def roundHalfEven (q : ℚ) : Int :=
  if q - (⌊q⌋ : ℚ) < 1 / 2 then ⌊q⌋
  else if 1 / 2 < q - (⌊q⌋ : ℚ) then ⌊q⌋ + 1
  else if ⌊q⌋ % 2 = 0 then ⌊q⌋ else ⌊q⌋ + 1

/-- The `float64` nearest to the rational `q` (round to nearest, ties to even): `q`
is scaled by a power of two to a mantissa between `2^52` and `2^53`, the mantissa is
rounded to an integer and scaled back.  It is the result of a conversion
`float64(n)` of an integer and of every `float64` operation on the exact result. -/
def f64 (q : ℚ) : ℚ :=
  if q = 0 then 0
  else (roundHalfEven (q / (2 : ℚ) ^ (Int.log 2 |q| - 52)) : ℚ) * (2 : ℚ) ^ (Int.log 2 |q| - 52)

/-- `t.Sub(u)` of two times, which `time.Since` returns: the difference, kept within
the range of a `Duration`. -/
def timeSub (t u : Int) : Int := max (-9223372036854775808) (min MaxInt64 (t - u))

/-- `Duration.Seconds()`: `float64(sec) + float64(nsec)/1e9` for the whole seconds
`sec := d / Second` and the rest `nsec := d % Second`. -/
def durationSeconds (d : Int) : ℚ :=
  f64 (f64 ((goDiv d Second : Int) : ℚ) + f64 (f64 ((Int.tmod d Second : Int) : ℚ) / 1000000000))

/-- The body of the `for code, count := range m.StatusCodeCounts` loop of `GetStats`:
the `switch` on one entry of the histogram. -/
def countClass (stats : Stats) (entry : Int × Int) : Stats :=
  if entry.1 ≥ 200 ∧ entry.1 < 300 then
    { stats with StatusCode2xx := stats.StatusCode2xx + entry.2 }
  else if entry.1 ≥ 400 ∧ entry.1 < 500 then
    { stats with StatusCode4xx := stats.StatusCode4xx + entry.2 }
  else if entry.1 ≥ 500 then
    { stats with StatusCode5xx := stats.StatusCode5xx + entry.2 }
  else stats

/-- `sort.Slice(sorted, func(i, j) bool { return sorted[i] < sorted[j] })` on a copy:
the ascending rearrangement of the latencies. -/
def sortAscending (l : List Int) : List Int := l.insertionSort (· ≤ ·)

/-- The first part of `Metrics.GetStats()` (up to and including the loop over the
histogram), called at time `now`: the `Stats` value before the latency block.  Go
ranges over a map in an unspecified order; the loop only adds into three sums, so the
order of the association list stands for any of them. -/
def statsCounters (m : Metrics) (now : Int) : Stats :=
  let stats : Stats :=
    { P50 := 0, P95 := 0, P99 := 0, AvgLatency := 0, MinLatency := 0, MaxLatency := 0
      Throughput := 0, ErrorRate := 0, AvgSize := 0
      TotalRequests := m.TotalRequests, TotalErrors := m.TotalErrors
      StatusCode2xx := 0, StatusCode4xx := 0, StatusCode5xx := 0 }
  let stats :=
    if m.TotalRequests > 0 then
      { stats with ErrorRate :=
                     f64 (f64 (f64 (m.TotalErrors : ℚ) / f64 (m.TotalRequests : ℚ)) * 100)
                   AvgLatency := goDiv m.TotalLatency m.TotalRequests
                   AvgSize := goDiv m.TotalBytes m.TotalRequests }
    else stats
  let windowDuration : ℚ := durationSeconds (timeSub now m.WindowStart)
  let stats :=
    if windowDuration > 0 then
      { stats with Throughput := f64 (f64 (m.TotalRequests : ℚ) / windowDuration) }
    else stats
  m.StatusCodeCounts.foldl countClass stats

/-- `Metrics.GetStats()`, called at time `now`: `statsCounters`, then the block
guarded by `len(m.Latencies) > 0`. -/
def GetStats (m : Metrics) (now : Int) : Option Stats :=
  let stats := statsCounters m now
  if m.Latencies.length > 0 then do
    let sorted := sortAscending m.Latencies
    let minLatency ← sorted[0]?
    let maxLatency ← sorted[sorted.length - 1]?
    let p50 ← percentile sorted 50
    let p95 ← percentile sorted 95
    let p99 ← percentile sorted 99
    pure { stats with MinLatency := minLatency, MaxLatency := maxLatency
                      P50 := p50, P95 := p95, P99 := p99 }
  else pure stats

/-- A run of `Record` calls, in order. -/
def recordAll (m : Metrics) (rs : List RequestResult) : Metrics := rs.foldl Record m

/-- One call on a `Metrics`: `Record(r)` or `Reset()` at some time. -/
inductive Call where
  | record (r : RequestResult)
  | reset (now : Int)

/-- The state after one call. -/
def applyCall (m : Metrics) : Call → Metrics
  | Call.record r => Record m r
  | Call.reset now => Reset m now

/-- The state after a sequence of calls, in order. -/
def run (m : Metrics) (calls : List Call) : Metrics := calls.foldl applyCall m

/-- A successful result of `TestMetrics_Percentiles`: the given latency in
milliseconds, status 200, size 100. -/
def scenarioResult (ms : Int) : RequestResult :=
  { Timestamp := 0, Latency := ms * Millisecond, StatusCode := 200, Size := 100
    IsError := false, ErrorMessage := "" }

/-- The ten results of `TestMetrics_Percentiles`: latencies 10ms, 20ms, ..., 100ms. -/
def percentilesScenario : List RequestResult :=
  [scenarioResult 10, scenarioResult 20, scenarioResult 30, scenarioResult 40,
    scenarioResult 50, scenarioResult 60, scenarioResult 70, scenarioResult 80,
    scenarioResult 90, scenarioResult 100]

/-- The index `percentile` reads in a slice of length `n`: the ceiling less one, and
`0` when that is negative. -/
def rankIndex (n : Nat) (p : Int) : Nat := (ceilDiv100 (((n : Int) - 1) * p) - 1).toNat

/-- The sum of the counts of the histogram entries whose status code satisfies `f`. -/
def sumWhere (f : Int → Bool) : List (Int × Int) → Int
  | [] => 0
  | (k, v) :: rest => (if f k then v else 0) + sumWhere f rest

/-- Status codes of the class 2xx: `[200, 300)`. -/
def is2xx (code : Int) : Bool := decide (200 ≤ code) && decide (code < 300)

/-- Status codes of the class 4xx: `[400, 500)`. -/
def is4xx (code : Int) : Bool := decide (400 ≤ code) && decide (code < 500)

/-- Status codes of the class 5xx: `[500, ∞)`. -/
def is5xx (code : Int) : Bool := decide (500 ≤ code)

/-- The number of results of `rs` that are not errors and whose status code
satisfies `f`. -/
def successesWhere (f : Int → Bool) (rs : List RequestResult) : Int :=
  ((rs.filter fun r => !r.IsError && f r.StatusCode).length : Int)

/-- A successful result with the given latency, status 200 and size 100. -/
def sampleResult (latency : Int) : RequestResult :=
  { Timestamp := 0, Latency := latency, StatusCode := 200, Size := 100, IsError := false
    ErrorMessage := "" }

/-- A window of capacity 2 that has seen the latencies 20 and 10, in this order. -/
def sampleWindow : Metrics := recordAll (NewMetrics 2 0) [sampleResult 20, sampleResult 10]

/-! ## Load tester and load generator (`monitor/tester.go`)

The goroutines and the locks are not modelled.  A `LoadTester` or `LoadGenerator`
value holds the fields the operations read and write, with the buffered request
channel as the number of units it holds and the goroutines as counts.  A call that can
panic returns an `Outcome` that carries the state reached and a flag.  The first
statements of a `runGenerator` goroutine (up to its loop) run at the point where
`Start` spawns it. -/

/-- The struct `Endpoint`. -/
structure Endpoint where
  URL : String
  Name : String
  Status : EndpointStatus
  LastCheck : Int
  LastLatency : Int
  IsHTTPS : Bool
  IsActive : Bool
  deriving DecidableEq, Repr

/-- A buffered channel: the number of values it holds and its capacity. -/
structure Chan where
  len : Nat
  cap : Nat
  deriving DecidableEq, Repr

/-- The non-blocking send `select { case ch <- v: default: }`. -/
def Chan.trySend (ch : Chan) : Chan :=
  if ch.len < ch.cap then { ch with len := ch.len + 1 } else ch

/-- The struct `LoadTester`.  `endpoint` and `metrics` are the values behind the two
pointers (`none` for nil); `clientTimeout` is `client.Timeout`; `workers` and
`collectors` count the goroutines `worker` and `resultCollector` that were started and
have not returned.  The context, the wait group and the result channel are left out. -/
structure LoadTester where
  endpoint : Option Endpoint
  metrics : Option Metrics
  concurrency : Int
  maxConcur : Int
  timeout : Int
  clientTimeout : Int
  running : Bool
  reqChan : Chan
  requestsSent : Int
  workers : Nat
  collectors : Nat
  deriving DecidableEq, Repr

/-- The result of a call that returns an `error` or can panic: the state reached,
the returned error (`none` for nil) and whether the call panicked. -/
structure Outcome (σ : Type) where
  state : σ
  err : Option String
  panicked : Bool
  deriving DecidableEq, Repr

/-- A call that returns normally, with a nil error if it has a result. -/
def Outcome.ok {σ : Type} (s : σ) : Outcome σ := { state := s, err := none, panicked := false }

/-- A call that panics in state `s`. -/
def Outcome.panic {σ : Type} (s : σ) : Outcome σ :=
  { state := s, err := none, panicked := true }

/-- The option `WithConcurrency(concurrency)`. -/
def WithConcurrency (concurrency : Int) (lt : LoadTester) : LoadTester :=
  if concurrency > 0 ∧ concurrency ≤ lt.maxConcur then { lt with concurrency := concurrency }
  else lt

/-- The option `WithMaxConcurrency(max)`. -/
def WithMaxConcurrency (max : Int) (lt : LoadTester) : LoadTester :=
  if max > 0 then { lt with maxConcur := max } else lt

/-- The option `WithClientTimeout(timeout)`. -/
def WithClientTimeout (timeout : Int) (lt : LoadTester) : LoadTester :=
  { lt with timeout := timeout, clientTimeout := timeout }

/-- `NewLoadTester(endpoint, metrics, opts...)`. -/
def NewLoadTester (endpoint : Option Endpoint) (metrics : Option Metrics)
    (opts : List (LoadTester → LoadTester)) : LoadTester :=
  let timeout := 10 * Second
  let lt : LoadTester :=
    { endpoint := endpoint
      metrics := metrics
      concurrency := 10
      maxConcur := 100
      timeout := timeout
      clientTimeout := timeout
      running := false
      reqChan := { len := 0, cap := 1000 }
      requestsSent := 0
      workers := 0
      collectors := 0 }
  opts.foldl (fun lt opt => opt lt) lt

/-- `LoadTester.Start()`. -/
def LoadTester.Start (lt : LoadTester) : Outcome LoadTester :=
  if lt.running then
    { state := lt, err := some "load tester already running", panicked := false }
  else
    Outcome.ok { lt with running := true
                         requestsSent := 0
                         workers := lt.workers + lt.concurrency.toNat
                         collectors := lt.collectors + 1 }

/-- `LoadTester.Stop()`: after `wg.Wait()` every goroutine of the tester has returned. -/
def LoadTester.Stop (lt : LoadTester) : LoadTester :=
  if !lt.running then lt
  else { lt with running := false, workers := 0, collectors := 0 }

/-- `LoadTester.SendRequest()`. -/
def LoadTester.SendRequest (lt : LoadTester) : LoadTester :=
  if !lt.running then lt
  else { lt with requestsSent := lt.requestsSent + 1, reqChan := lt.reqChan.trySend }

/-- `LoadTester.SetConcurrency(n)`. -/
def LoadTester.SetConcurrency (lt : LoadTester) (n : Int) : LoadTester :=
  let n := if n < 1 then 1 else n
  let n := if n > lt.maxConcur then lt.maxConcur else n
  let current := lt.concurrency
  let lt := { lt with concurrency := n }
  if lt.running then
    if n > current then { lt with workers := lt.workers + (n - current).toNat } else lt
  else lt

/-- `LoadTester.IncreaseConcurrency()`. -/
def LoadTester.IncreaseConcurrency (lt : LoadTester) : LoadTester :=
  lt.SetConcurrency (wrap64 (lt.concurrency + 1))

/-- `LoadTester.DecreaseConcurrency()`. -/
def LoadTester.DecreaseConcurrency (lt : LoadTester) : LoadTester :=
  lt.SetConcurrency (wrap64 (lt.concurrency - 1))

/-- `LoadTester.GetConcurrency()`. -/
def LoadTester.GetConcurrency (lt : LoadTester) : Int := lt.concurrency

/-- A `time.Ticker`: the URL of the tester whose `runGenerator` made it, its period
and whether it is ticking. -/
structure Ticker where
  tester : String
  period : Int
  active : Bool
  deriving DecidableEq, Repr

/-- `time.NewTicker(d)`, which panics (`none`) unless `d > 0`. -/
def NewTicker (tester : String) (d : Int) : Option Ticker :=
  if d ≤ 0 then none else some { tester := tester, period := d, active := true }

/-- `Ticker.Reset(d)`, which panics (`none`) unless `d > 0`. -/
def Ticker.Reset (t : Ticker) (d : Int) : Option Ticker :=
  if d ≤ 0 then none else some { t with period := d, active := true }

/-- The expression `time.Second / time.Duration(rps)`; a zero divisor panics. -/
def tickInterval (rps : Int) : Option Int :=
  if rps = 0 then none else some (goDiv Second rps)

/-- The struct `LoadGenerator`.  `testers` is the map from URL to tester as an
association list with distinct keys.  `tickers` holds every ticker a `runGenerator`
has made, the most recent first: the field `ticker` of the source, which each
`runGenerator` overwrites, points to the head and is nil when the list is empty.
`generators` counts the `runGenerator` goroutines that have not returned. -/
structure LoadGenerator where
  testers : List (String × LoadTester)
  rps : Int
  tickers : List Ticker
  running : Bool
  generators : Nat
  deriving DecidableEq, Repr

/-- The map read `testers[url]`. -/
def lookupTester : List (String × LoadTester) → String → Option LoadTester
  | [], _ => none
  | (k, t) :: rest, url => if k = url then some t else lookupTester rest url

/-- A write through the pointer stored under `url`: the entry of `url` becomes `t`. -/
def setTester : List (String × LoadTester) → String → LoadTester → List (String × LoadTester)
  | [], _, _ => []
  | (k, v) :: rest, url, t =>
    if k = url then (k, t) :: rest else (k, v) :: setTester rest url t

/-- The statement `delete(testers, url)`. -/
def deleteTester (testers : List (String × LoadTester)) (url : String) :
    List (String × LoadTester) :=
  testers.filter fun e => e.1 ≠ url

/-- `NewLoadGenerator()`. -/
def NewLoadGenerator : LoadGenerator :=
  { testers := [], rps := 10, tickers := [], running := false, generators := 0 }

/-- `LoadGenerator.AddTester(endpoint, metrics)` for a non-nil `endpoint`. -/
def LoadGenerator.AddTester (lg : LoadGenerator) (endpoint : Endpoint)
    (metrics : Option Metrics) : LoadGenerator :=
  match lookupTester lg.testers endpoint.URL with
  | some _ => lg
  | none =>
    { lg with testers := lg.testers ++ [(endpoint.URL, NewLoadTester (some endpoint) metrics [])] }

/-- `LoadGenerator.RemoveTester(url)`: the tester is stopped and then deleted, so the
generator keeps no trace of it. -/
def LoadGenerator.RemoveTester (lg : LoadGenerator) (url : String) : LoadGenerator :=
  match lookupTester lg.testers url with
  | some _ => { lg with testers := deleteTester lg.testers url }
  | none => lg

/-- The statements of `LoadGenerator.runGenerator(tester)` before its loop, for the
tester stored under `url`: the interval is computed from the current `rps`, a new
ticker is made and stored in the field `ticker`. -/
def LoadGenerator.runGenerator (lg : LoadGenerator) (url : String) : Outcome LoadGenerator :=
  match (tickInterval lg.rps).bind (NewTicker url) with
  | none => Outcome.panic lg
  | some t => Outcome.ok { lg with tickers := t :: lg.tickers, generators := lg.generators + 1 }

/-- One round of the loop `for _, tester := range lg.testers` of `Start`, for the
tester stored under `url`. -/
def LoadGenerator.startTester (lg : LoadGenerator) (url : String) : Outcome LoadGenerator :=
  match lookupTester lg.testers url with
  | none => Outcome.ok lg
  | some t =>
    let r := t.Start
    let lg := { lg with testers := setTester lg.testers url r.state }
    if r.err = none then lg.runGenerator url else Outcome.ok lg

/-- The loop `for _, tester := range lg.testers` of `Start` over the given keys; a
panic ends it. -/
def LoadGenerator.startAll : LoadGenerator → List String → Outcome LoadGenerator
  | lg, [] => Outcome.ok lg
  | lg, url :: rest =>
    let r := lg.startTester url
    if r.panicked then r else LoadGenerator.startAll r.state rest

/-- `LoadGenerator.Start(rps)`; the map is ranged over in the order of the list. -/
def LoadGenerator.Start (lg : LoadGenerator) (rps : Int) : Outcome LoadGenerator :=
  if lg.running then
    { state := lg, err := some "load generator already running", panicked := false }
  else
    let rps := if rps < 1 then 1 else rps
    let lg := { lg with rps := rps, running := true }
    lg.startAll (lg.testers.map fun e => e.1)

/-- `LoadGenerator.Stop()`: after `lg.wg.Wait()` every `runGenerator` has returned
and has stopped its ticker; then every tester is stopped. -/
def LoadGenerator.Stop (lg : LoadGenerator) : LoadGenerator :=
  if !lg.running then lg
  else
    { lg with running := false
              generators := 0
              tickers := lg.tickers.map fun t => { t with active := false }
              testers := lg.testers.map fun e => (e.1, e.2.Stop) }

/-- `LoadGenerator.SetRPS(rps)`. -/
def LoadGenerator.SetRPS (lg : LoadGenerator) (rps : Int) : Outcome LoadGenerator :=
  let rps := if rps < 1 then 1 else rps
  let lg := { lg with rps := rps }
  match lg.tickers with
  | [] => Outcome.ok lg
  | t :: rest =>
    match (tickInterval rps).bind t.Reset with
    | none => Outcome.panic lg
    | some t2 => Outcome.ok { lg with tickers := t2 :: rest }

/-- `LoadGenerator.IncreaseRPS()`. -/
def LoadGenerator.IncreaseRPS (lg : LoadGenerator) : Outcome LoadGenerator :=
  lg.SetRPS (wrap64 (lg.rps + 5))

/-- `LoadGenerator.DecreaseRPS()`. -/
def LoadGenerator.DecreaseRPS (lg : LoadGenerator) : Outcome LoadGenerator :=
  let r := lg.SetRPS (wrap64 (lg.rps - 5))
  if r.panicked then r
  else if r.state.rps < 1 then r.state.SetRPS 1 else r

/-- `LoadGenerator.GetRPS()`. -/
def LoadGenerator.GetRPS (lg : LoadGenerator) : Int := lg.rps

/-- One call on a `LoadGenerator`. -/
inductive GenCall where
  | start (rps : Int)
  | setRPS (rps : Int)
  | increaseRPS
  | decreaseRPS
  | stop
  | addTester (endpoint : Endpoint) (metrics : Option Metrics)
  | removeTester (url : String)

/-- The outcome of one call. -/
def applyGenCall (lg : LoadGenerator) : GenCall → Outcome LoadGenerator
  | GenCall.start rps => lg.Start rps
  | GenCall.setRPS rps => lg.SetRPS rps
  | GenCall.increaseRPS => lg.IncreaseRPS
  | GenCall.decreaseRPS => lg.DecreaseRPS
  | GenCall.stop => Outcome.ok lg.Stop
  | GenCall.addTester endpoint metrics => Outcome.ok (lg.AddTester endpoint metrics)
  | GenCall.removeTester url => Outcome.ok (lg.RemoveTester url)

/-- The outcome of a sequence of calls, in order; a panic ends the run. -/
def runCalls : LoadGenerator → List GenCall → Outcome LoadGenerator
  | lg, [] => Outcome.ok lg
  | lg, c :: rest =>
    let r := applyGenCall lg c
    if r.panicked then r else runCalls r.state rest

/-- An endpoint with the given URL. -/
def sampleEndpoint (url : String) : Endpoint :=
  { URL := url, Name := url, Status := EndpointStatus.StatusUnknown, LastCheck := 0
    LastLatency := 0, IsHTTPS := false, IsActive := true }

/-- A generator with two registered testers, for the URLs `a` and `b`. -/
def sampleGenerator : LoadGenerator :=
  (NewLoadGenerator.AddTester (sampleEndpoint "a") none).AddTester (sampleEndpoint "b") none

/-! ## The collector, recent latencies, endpoints, configuration and `Truncate`

`net/url` and `net/http` are not part of the repository: `url.Parse`, `URL.Port` and
`URL.String` are arguments of `NewEndpoint`, and `makeRequest` takes the outcome of
the HTTP exchange as an argument.  A Go string that is sliced is a list of bytes. -/

/-- `Endpoint.Update(latency, err)`, called at time `now`. -/
def Endpoint.Update (e : Endpoint) (latency : Int) (err : Option String) (now : Int) :
    Endpoint :=
  { e with LastCheck := now, LastLatency := latency, Status := DetermineStatus latency err }

/-- The outcome of `lt.client.Do(req)`: a transport error, or a response with its
status code and the number of bytes of its body. -/
inductive DoResult where
  | failed (msg : String)
  | response (statusCode : Int) (size : Int)

/-- `LoadTester.makeRequest()`: `now` is the time of the call, `reqErr` the error of
`http.NewRequestWithContext` (`none` for nil), `resp` the outcome of `client.Do` and
`latency` the value of `time.Since(start)`. -/
def LoadTester.makeRequest (lt : LoadTester) (now : Int) (reqErr : Option String)
    (resp : DoResult) (latency : Int) : RequestResult :=
  let result : RequestResult :=
    { Timestamp := now, Latency := 0, StatusCode := 0, Size := 0, IsError := false
      ErrorMessage := "" }
  match lt.endpoint with
  | none => { result with IsError := true, ErrorMessage := "no endpoint configured" }
  | some _ =>
    match reqErr with
    | some msg => { result with IsError := true, ErrorMessage := msg, Latency := latency }
    | none =>
      let result := { result with Latency := latency }
      match resp with
      | DoResult.failed msg => { result with IsError := true, ErrorMessage := msg }
      | DoResult.response statusCode size =>
        { result with StatusCode := statusCode, Size := size }

/-- One round of the loop of `LoadTester.resultCollector` for a received `result`, at
time `now`: `Record` on the metrics when they are not nil, then `Update` on the
endpoint, which panics when the endpoint is nil. -/
def LoadTester.collect (lt : LoadTester) (result : RequestResult) (now : Int) :
    Outcome LoadTester :=
  let lt :=
    match lt.metrics with
    | some m => { lt with metrics := some (Record m result) }
    | none => lt
  match lt.endpoint with
  | none => Outcome.panic lt
  | some e =>
    let err : Option String :=
      if result.IsError then some ("request error: " ++ result.ErrorMessage) else none
    Outcome.ok { lt with endpoint := some (e.Update result.Latency err now) }

/-- The statements `result := make([]time.Duration, n)` and `copy(result, src)`:
`n` elements, the first ones from `src` and zeros after them. -/
def makeAndCopy (n : Nat) (src : List Int) : List Int :=
  src.take n ++ List.replicate (n - src.length) 0

/-- `Metrics.GetRecentLatencies(count)`; `make` with a negative length panics
(`none`), and the nil result is the empty list. -/
def GetRecentLatencies (m : Metrics) (count : Int) : Option (List Int) :=
  let count := if count > (m.Latencies.length : Int) then (m.Latencies.length : Int) else count
  if count = 0 then some []
  else
    let start := (m.Latencies.length : Int) - count
    if count < 0 then none
    else some (makeAndCopy count.toNat (m.Latencies.drop start.toNat))

/-- The memory that holds the arrays behind the slices of the program: the array at
address `a` is `arrays[a]`. -/
structure Heap where
  arrays : List (List Int)
  deriving DecidableEq, Repr

/-- A slice header: the address of its array, its offset in the array and its
length. -/
structure Slice where
  arr : Nat
  off : Nat
  len : Nat
  deriving DecidableEq, Repr

/-- The elements of the slice `s` in the heap `h`. -/
def Heap.read (h : Heap) (s : Slice) : List Int :=
  ((h.arrays.getD s.arr []).drop s.off).take s.len

/-- The assignments `s[0] = vals[0]`, `s[1] = vals[1]`, ... for as many values as the
slice holds: they change the array of `s`, in place. -/
def Heap.write (h : Heap) (s : Slice) (vals : List Int) : Heap :=
  let a := h.arrays.getD s.arr []
  let k := min vals.length (min s.len (a.length - s.off))
  { arrays := h.arrays.set s.arr (a.take s.off ++ vals.take k ++ a.drop (s.off + k)) }

/-- `make([]time.Duration, n)`: an array of `n` zeros at a fresh address and the
slice of all of it. -/
def Heap.make (h : Heap) (n : Nat) : Heap × Slice :=
  ({ arrays := h.arrays ++ [List.replicate n 0] }, { arr := h.arrays.length, off := 0, len := n })

/-- `copy(dst, src)`. -/
def Heap.copy (h : Heap) (dst src : Slice) : Heap := h.write dst (h.read src)

/-- `sort.Slice(s, func(i, j int) bool { return s[i] < s[j] })`: the elements of `s`
are put in ascending order in the array of `s`. -/
def Heap.sortSlice (h : Heap) (s : Slice) : Heap := h.write s (sortAscending (h.read s))

/-- `Metrics.GetStats()`, called at time `now`, on a receiver whose field `Latencies`
is the slice `lat` of the heap `h` and whose other fields are those of `m`: the heap
after the call and the returned `Stats`.  The body assigns to no field of the
receiver; its writes to memory are those of `make`, `copy` and `sort.Slice`. -/
def GetStatsOnHeap (h : Heap) (lat : Slice) (m : Metrics) (now : Int) : Heap × Option Stats :=
  let stats := statsCounters m now
  if lat.len > 0 then
    let made := h.make lat.len
    let sorted := made.2
    let h := made.1.copy sorted lat
    let h := h.sortSlice sorted
    (h, do
      let minLatency ← (h.read sorted)[0]?
      let maxLatency ← (h.read sorted)[sorted.len - 1]?
      let p50 ← percentile (h.read sorted) 50
      let p95 ← percentile (h.read sorted) 95
      let p99 ← percentile (h.read sorted) 99
      pure { stats with MinLatency := minLatency, MaxLatency := maxLatency
                        P50 := p50, P95 := p95, P99 := p99 })
  else (h, pure stats)

/-- A heap with two arrays and the slice of the last two elements of the second. -/
def sampleHeap : Heap := { arrays := [[7, 7], [5, 30, 10]] }

/-- The slice `[30, 10]` of `sampleHeap`. -/
def sampleSlice : Slice := { arr := 1, off := 1, len := 2 }

/-- The fields of `url.URL` that `NewEndpoint` reads and writes; `Host` is `host` or
`host:port`. -/
structure ParsedURL where
  Scheme : String
  Host : String
  Path : String
  deriving DecidableEq, Repr

/-- `strings.HasPrefix(s, pre)`. -/
def HasPrefix (s pre : String) : Bool := pre.toList.isPrefixOf s.toList

/-- `NewEndpoint(rawURL)`, with the three library calls as arguments: `parse` is
`url.Parse`, `portOf` gives `URL.Port()` from the field `Host`, and `render` is
`URL.String()`. -/
def NewEndpoint (parse : String → Except String ParsedURL) (portOf : String → String)
    (render : ParsedURL → String) (rawURL : String) : Except String Endpoint :=
  let rawURL :=
    if !HasPrefix rawURL "http://" && !HasPrefix rawURL "https://" then "http://" ++ rawURL
    else rawURL
  match parse rawURL with
  | Except.error err => Except.error err
  | Except.ok parsed =>
    let parsed :=
      if portOf parsed.Host = "" then
        if parsed.Scheme = "https" then { parsed with Host := parsed.Host ++ ":443" }
        else { parsed with Host := parsed.Host ++ ":80" }
      else parsed
    let name :=
      if parsed.Path ≠ "" ∧ parsed.Path ≠ "/" then parsed.Host ++ parsed.Path
      else parsed.Host
    Except.ok
      { URL := render parsed
        Name := name
        Status := EndpointStatus.StatusUnknown
        LastCheck := 0
        LastLatency := 0
        IsHTTPS := decide (parsed.Scheme = "https")
        IsActive := true }

/-- The struct `EndpointConfig` of `config/config.go`. -/
structure EndpointConfig where
  URL : String
  Name : String
  deriving DecidableEq, Repr

/-- The struct `Config`, without its mutex. -/
structure Config where
  Endpoints : List EndpointConfig
  DefaultPorts : List Int
  CheckInterval : Int
  LoadTestRPS : Int
  Timeout : Int
  MaxConcurrency : Int
  WindowSeconds : Int
  deriving DecidableEq, Repr

/-- `DefaultConfig()`. -/
def DefaultConfig : Config :=
  { Endpoints := []
    DefaultPorts := [3000, 3001, 8080, 8000, 5000, 9000, 4000, 4200, 5173]
    CheckInterval := 1
    LoadTestRPS := 10
    Timeout := 5
    MaxConcurrency := 100
    WindowSeconds := 30 }

/-- The loop of `Config.AddEndpoint`: whether some entry has the URL `url`. -/
def hasURL : List EndpointConfig → String → Bool
  | [], _ => false
  | ep :: rest, url => if ep.URL = url then true else hasURL rest url

/-- `Config.AddEndpoint(url, name)`. -/
def Config.AddEndpoint (c : Config) (url name : String) : Config :=
  if hasURL c.Endpoints url then c
  else { c with Endpoints := c.Endpoints ++ [{ URL := url, Name := name }] }

/-- The loop of `Config.RemoveEndpoint`: the slice without its first entry of URL
`url`, which is `append(c.Endpoints[:i], c.Endpoints[i+1:]...)` at the first such
`i`. -/
def removeFirstURL : List EndpointConfig → String → List EndpointConfig
  | [], _ => []
  | ep :: rest, url => if ep.URL = url then rest else ep :: removeFirstURL rest url

/-- `Config.RemoveEndpoint(url)`. -/
def Config.RemoveEndpoint (c : Config) (url : String) : Config :=
  { c with Endpoints := removeFirstURL c.Endpoints url }

/-- The slice expression `s[:hi]` on a string of bytes, which panics (`none`) unless
`0 ≤ hi ≤ len(s)`. -/
def sliceTo (s : List Nat) (hi : Int) : Option (List Nat) :=
  if hi < 0 ∨ hi > (s.length : Int) then none else some (s.take hi.toNat)

/-- The three bytes of the string `"..."`. -/
def dots : List Nat := [46, 46, 46]

/-- `ui.Truncate(s, maxLen)` on a string of bytes. -/
def Truncate (s : List Nat) (maxLen : Int) : Option (List Nat) :=
  if (s.length : Int) ≤ maxLen then some s
  else if maxLen ≤ 3 then sliceTo s maxLen
  else (sliceTo s (maxLen - 3)).map fun t => t ++ dots

/-- A table that stands for `url.Parse` on the inputs of `TestNewEndpoint`. -/
def sampleParse (raw : String) : Except String ParsedURL :=
  if raw = "http://localhost:8080" then
    Except.ok { Scheme := "http", Host := "localhost:8080", Path := "" }
  else if raw = "http://example.com" then
    Except.ok { Scheme := "http", Host := "example.com", Path := "" }
  else if raw = "http://localhost:3000/" then
    Except.ok { Scheme := "http", Host := "localhost:3000", Path := "/" }
  else if raw = "https://localhost:8443/health" then
    Except.ok { Scheme := "https", Host := "localhost:8443", Path := "/health" }
  else Except.error "parse error"

/-- A table that stands for `URL.Port()` on the hosts of `sampleParse`. -/
def samplePort (host : String) : String :=
  if host = "localhost:8080" then "8080"
  else if host = "localhost:3000" then "3000"
  else if host = "localhost:8443" then "8443"
  else ""

/-- The rendering `scheme://host` followed by the path, which is `URL.String()` on a
URL that has only these three parts and needs no escaping. -/
def sampleRender (u : ParsedURL) : String := u.Scheme ++ "://" ++ u.Host ++ u.Path

/-- The field `Host` for a host name and an optional port: `host` or `host:port`. -/
def hostPort (host : String) (port : Option String) : String :=
  match port with
  | some p => host ++ ":" ++ p
  | none => host

/-- The port of the endpoint for a given optional port: the given one, or else `443`
for the scheme `https` and `80` for any other scheme. -/
def effectivePort (scheme : String) (port : Option String) : String :=
  match port with
  | some p => p
  | none => if scheme = "https" then "443" else "80"

/-- A tester with an endpoint and a window of capacity 5. -/
def sampleTester : LoadTester :=
  NewLoadTester (some (sampleEndpoint "a")) (some (NewMetrics 5 0)) []

/-- A configuration with the two endpoints of `TestConfig_RemoveEndpoint`. -/
def sampleConfig : Config :=
  (DefaultConfig.AddEndpoint "http://localhost:3000" "API").AddEndpoint
    "http://localhost:8080" "Backend"

/-- A result that is an error. -/
def sampleError : RequestResult :=
  { Timestamp := 0, Latency := 5, StatusCode := 0, Size := 0, IsError := true
    ErrorMessage := "connection refused" }

/-- A window after one error and two successes. -/
def oneErrorInThree : Metrics :=
  run (NewMetrics 10 0)
    [Call.record sampleError, Call.record (sampleResult 5), Call.record (sampleResult 5)]

/-- The quotient of two integers rounded toward zero, from the exact quotient: its
floor when the dividend is not negative and its ceiling otherwise. -/
def quotTowardZero (a b : Int) : Int :=
  if 0 ≤ a then ⌊(a : ℚ) / (b : ℚ)⌋ else ⌈(a : ℚ) / (b : ℚ)⌉

theorem roundHalfEven_close (q : ℚ) :
    (roundHalfEven q : ℚ) - 1 / 2 ≤ q ∧ q ≤ (roundHalfEven q : ℚ) + 1 / 2 := by
  have h1 := Int.floor_le q
  have h2 := Int.lt_floor_add_one q
  unfold roundHalfEven
  split_ifs with a b c
  · constructor <;> linarith
  · push_cast
    constructor <;> linarith
  · constructor <;> linarith
  · push_cast
    constructor <;> linarith

theorem roundHalfEven_of_close (q : ℚ) (n : Int) (h1 : (n : ℚ) - 1 / 2 < q)
    (h2 : q < (n : ℚ) + 1 / 2) : roundHalfEven q = n := by
  obtain ⟨c1, c2⟩ := roundHalfEven_close q
  have a1 : ((roundHalfEven q : Int) : ℚ) < (n : ℚ) + 1 := by linarith
  have a2 : (n : ℚ) < ((roundHalfEven q : Int) : ℚ) + 1 := by linarith
  have b1 : roundHalfEven q < n + 1 := by exact_mod_cast a1
  have b2 : n < roundHalfEven q + 1 := by exact_mod_cast a2
  omega

theorem roundHalfEven_intCast (n : Int) : roundHalfEven (n : ℚ) = n :=
  roundHalfEven_of_close _ n (by linarith) (by linarith)

theorem roundHalfEven_mono {x y : ℚ} (h : x ≤ y) : roundHalfEven x ≤ roundHalfEven y := by
  by_contra hlt
  push_neg at hlt
  obtain ⟨-, c2⟩ := roundHalfEven_close y
  obtain ⟨d1, -⟩ := roundHalfEven_close x
  have hstep : roundHalfEven y + 1 ≤ roundHalfEven x := hlt
  have hq : ((roundHalfEven y : Int) : ℚ) + 1 ≤ ((roundHalfEven x : Int) : ℚ) := by
    exact_mod_cast hstep
  have hxy : x = y := by linarith
  rw [hxy] at hlt
  exact lt_irrefl _ hlt

theorem two_zpow_pos (k : Int) : (0 : ℚ) < (2 : ℚ) ^ k := zpow_pos (by norm_num) k

theorem log2_eq_of_bounds (q : ℚ) (k : Int) (h1 : (2 : ℚ) ^ k ≤ q) (h2 : q < (2 : ℚ) ^ (k + 1)) :
    Int.log 2 q = k := by
  have hpos : 0 < q := lt_of_lt_of_le (two_zpow_pos k) h1
  have a : k ≤ Int.log 2 q := by
    rw [← Int.zpow_le_iff_le_log (by norm_num) hpos]
    simpa using h1
  have b : Int.log 2 q < k + 1 := by
    rw [← Int.lt_zpow_iff_log_lt (by norm_num) hpos]
    simpa using h2
  omega

theorem log2_bounds (q : ℚ) (hpos : 0 < q) :
    (2 : ℚ) ^ (Int.log 2 q) ≤ q ∧ q < (2 : ℚ) ^ (Int.log 2 q + 1) := by
  have a := Int.zpow_log_le_self (b := 2) (r := q) (by norm_num) hpos
  have b := Int.lt_zpow_succ_log_self (b := 2) (by norm_num) q
  constructor
  · simpa using a
  · simpa using b

theorem f64_zero : f64 0 = 0 := by
  simp [f64]

theorem f64_eq_of_bounds (q : ℚ) (k n : Int) (h1 : (2 : ℚ) ^ (k + 52) ≤ |q|)
    (h2 : |q| < (2 : ℚ) ^ (k + 52 + 1)) (h3 : (n : ℚ) - 1 / 2 < q / (2 : ℚ) ^ k)
    (h4 : q / (2 : ℚ) ^ k < (n : ℚ) + 1 / 2) : f64 q = (n : ℚ) * (2 : ℚ) ^ k := by
  have hlog := log2_eq_of_bounds |q| (k + 52) h1 h2
  have hne : q ≠ 0 := by
    intro h0
    rw [h0, abs_zero] at h1
    exact absurd h1 (not_le.mpr (two_zpow_pos _))
  unfold f64
  rw [if_neg hne, hlog]
  have hk : k + 52 - 52 = k := by omega
  rw [hk, roundHalfEven_of_close _ n h3 h4]

theorem f64_scaled_bounds (q : ℚ) (hpos : 0 < q) :
    (2 : ℚ) ^ (52 : Int) ≤ q / (2 : ℚ) ^ (Int.log 2 q - 52) ∧
    q / (2 : ℚ) ^ (Int.log 2 q - 52) < (2 : ℚ) ^ (53 : Int) := by
  obtain ⟨a, b⟩ := log2_bounds q hpos
  have hp := two_zpow_pos (Int.log 2 q - 52)
  constructor
  · rw [le_div_iff₀ hp, ← zpow_add₀ (by norm_num : (2 : ℚ) ≠ 0)]
    have : (52 : Int) + (Int.log 2 q - 52) = Int.log 2 q := by omega
    rw [this]
    exact a
  · rw [div_lt_iff₀ hp, ← zpow_add₀ (by norm_num : (2 : ℚ) ≠ 0)]
    have : (53 : Int) + (Int.log 2 q - 52) = Int.log 2 q + 1 := by omega
    rw [this]
    exact b

theorem f64_pos_bounds (q : ℚ) (hpos : 0 < q) :
    (2 : ℚ) ^ (Int.log 2 q) ≤ f64 q ∧ f64 q ≤ (2 : ℚ) ^ (Int.log 2 q + 1) := by
  obtain ⟨a, b⟩ := f64_scaled_bounds q hpos
  have hp := two_zpow_pos (Int.log 2 q - 52)
  have hne : q ≠ 0 := ne_of_gt hpos
  have habs : |q| = q := abs_of_pos hpos
  have e52 : ((2 : ℚ) ^ (52 : Int)) = (((2 : Int) ^ 52 : Int) : ℚ) := by norm_num
  have e53 : ((2 : ℚ) ^ (53 : Int)) = (((2 : Int) ^ 53 : Int) : ℚ) := by norm_num
  have r1 : ((2 : Int) ^ 52 : Int) ≤ roundHalfEven (q / (2 : ℚ) ^ (Int.log 2 q - 52)) := by
    rw [e52] at a
    have := roundHalfEven_mono a
    rwa [roundHalfEven_intCast] at this
  have r2 : roundHalfEven (q / (2 : ℚ) ^ (Int.log 2 q - 52)) ≤ ((2 : Int) ^ 53 : Int) := by
    rw [e53] at b
    have := roundHalfEven_mono (le_of_lt b)
    rwa [roundHalfEven_intCast] at this
  have q1 : (2 : ℚ) ^ (52 : Int) ≤ (roundHalfEven (q / (2 : ℚ) ^ (Int.log 2 q - 52)) : ℚ) := by
    rw [e52]
    exact_mod_cast r1
  have q2 : (roundHalfEven (q / (2 : ℚ) ^ (Int.log 2 q - 52)) : ℚ) ≤ (2 : ℚ) ^ (53 : Int) := by
    rw [e53]
    exact_mod_cast r2
  unfold f64
  rw [if_neg hne, habs]
  constructor
  · have : (2 : ℚ) ^ (Int.log 2 q) = (2 : ℚ) ^ (52 : Int) * (2 : ℚ) ^ (Int.log 2 q - 52) := by
      rw [← zpow_add₀ (by norm_num : (2 : ℚ) ≠ 0)]
      congr 1
      omega
    rw [this]
    exact mul_le_mul_of_nonneg_right q1 (le_of_lt hp)
  · have : (2 : ℚ) ^ (Int.log 2 q + 1) = (2 : ℚ) ^ (53 : Int) * (2 : ℚ) ^ (Int.log 2 q - 52) := by
      rw [← zpow_add₀ (by norm_num : (2 : ℚ) ≠ 0)]
      congr 1
      omega
    rw [this]
    exact mul_le_mul_of_nonneg_right q2 (le_of_lt hp)

theorem f64_nonneg (q : ℚ) (h : 0 ≤ q) : 0 ≤ f64 q := by
  rcases eq_or_lt_of_le h with h0 | hpos
  · rw [← h0, f64_zero]
  · exact le_trans (le_of_lt (two_zpow_pos _)) (f64_pos_bounds q hpos).1

theorem f64_mono_nonneg {x y : ℚ} (hx : 0 ≤ x) (hxy : x ≤ y) : f64 x ≤ f64 y := by
  rcases eq_or_lt_of_le hx with h0 | hpos
  · rw [← h0, f64_zero]
    exact f64_nonneg y (le_trans hx hxy)
  · have hypos : 0 < y := lt_of_lt_of_le hpos hxy
    have hlog : Int.log 2 x ≤ Int.log 2 y := Int.log_mono_right hpos hxy
    rcases eq_or_lt_of_le hlog with heq | hlt
    · have hp := two_zpow_pos (Int.log 2 y - 52)
      unfold f64
      rw [if_neg (ne_of_gt hpos), if_neg (ne_of_gt hypos), abs_of_pos hpos, abs_of_pos hypos, heq]
      apply mul_le_mul_of_nonneg_right _ (le_of_lt hp)
      have : x / (2 : ℚ) ^ (Int.log 2 y - 52) ≤ y / (2 : ℚ) ^ (Int.log 2 y - 52) :=
        div_le_div_of_nonneg_right hxy (le_of_lt hp)
      exact_mod_cast roundHalfEven_mono this
    · have a := (f64_pos_bounds x hpos).2
      have b := (f64_pos_bounds y hypos).1
      have c : (2 : ℚ) ^ (Int.log 2 x + 1) ≤ (2 : ℚ) ^ (Int.log 2 y) :=
        zpow_le_zpow_right₀ (by norm_num) (by omega)
      exact le_trans a (le_trans c b)

theorem f64_one : f64 1 = 1 := by
  have h := f64_eq_of_bounds 1 (-52) (2 ^ 52) (by norm_num) (by norm_num) (by norm_num)
    (by norm_num)
  rw [h]
  norm_num

theorem f64_hundred : f64 100 = 100 := by
  have h := f64_eq_of_bounds 100 (-46) (100 * 2 ^ 46) (by norm_num [abs_of_pos])
    (by norm_num [abs_of_pos]) (by norm_num) (by norm_num)
  rw [h]
  norm_num

theorem f64_three : f64 3 = 3 := by
  have h := f64_eq_of_bounds 3 (-51) (3 * 2 ^ 51) (by norm_num [abs_of_pos])
    (by norm_num [abs_of_pos]) (by norm_num) (by norm_num)
  rw [h]
  norm_num

theorem f64_third : f64 (1 / 3) = 6004799503160661 / 18014398509481984 := by
  have h := f64_eq_of_bounds (1 / 3) (-54) 6004799503160661 (by norm_num [abs_of_pos])
    (by norm_num [abs_of_pos]) (by norm_num) (by norm_num)
  rw [h]
  norm_num

theorem f64_third_times_hundred :
    f64 (6004799503160661 / 18014398509481984 * 100) =
      4691249611844266 / 140737488355328 := by
  have h := f64_eq_of_bounds (6004799503160661 / 18014398509481984 * 100) (-47)
    4691249611844266 (by norm_num [abs_of_pos]) (by norm_num [abs_of_pos]) (by norm_num)
    (by norm_num)
  rw [h]
  norm_num

/-! ## Lemmas on the percentile index -/

theorem ceilDiv100_eq_ceil (a : Int) : ceilDiv100 a = ⌈(a : ℚ) / 100⌉ := by
  have h := Rat.floor_intCast_div_natCast (-a) 100
  have h2 : ((-a : Int) : ℚ) / ((100 : ℕ) : ℚ) = -((a : ℚ) / 100) := by
    push_cast
    ring
  rw [h2, Int.floor_neg] at h
  unfold ceilDiv100
  have h3 : ((100 : ℕ) : Int) = 100 := rfl
  rw [h3] at h
  omega

theorem rankIndex_eq_ceil (n : Nat) (p : Int) :
    rankIndex n p = Int.toNat (⌈((n : ℚ) - 1) * (p : ℚ) / 100⌉ - 1) := by
  unfold rankIndex
  rw [ceilDiv100_eq_ceil]
  push_cast
  rfl

theorem ceilDiv100_mono {a b : Int} (h : a ≤ b) : ceilDiv100 a ≤ ceilDiv100 b := by
  unfold ceilDiv100
  omega

theorem rankIndex_mono (n : Nat) (hn : 0 < n) {p q : Int} (h : p ≤ q) :
    rankIndex n p ≤ rankIndex n q := by
  unfold rankIndex
  have h1 : ((n : Int) - 1) * p ≤ ((n : Int) - 1) * q :=
    Int.mul_le_mul_of_nonneg_left h (by omega)
  have h2 := ceilDiv100_mono h1
  omega

theorem rankIndex_lt (n : Nat) (hn : 0 < n) {p : Int} (hp : p ≤ 100) : rankIndex n p < n := by
  unfold rankIndex
  have h1 : ((n : Int) - 1) * p ≤ ((n : Int) - 1) * 100 :=
    Int.mul_le_mul_of_nonneg_left hp (by omega)
  have h2 := ceilDiv100_mono h1
  unfold ceilDiv100 at h2 ⊢
  omega

theorem rankIndex_one (p : Int) : rankIndex 1 p = 0 := by
  simp [rankIndex, ceilDiv100]

theorem percentile_eq_getElem (sorted : List Int) (p : Int) (hne : sorted ≠ []) :
    percentile sorted p = sorted[rankIndex sorted.length p]? := by
  unfold percentile
  have hlen : sorted.length ≠ 0 := by
    intro h
    exact hne (List.length_eq_zero.mp h)
  rw [if_neg hlen]
  by_cases h1 : sorted.length = 1
  · rw [if_pos h1, h1, rankIndex_one]
  · rw [if_neg h1]
    simp only [rankIndex]
    by_cases hneg : ceilDiv100 (((sorted.length : Int) - 1) * p) - 1 < 0
    · rw [if_pos hneg]
      have : (ceilDiv100 (((sorted.length : Int) - 1) * p) - 1).toNat = 0 := by omega
      rw [this]
      rfl
    · rw [if_neg hneg]

theorem percentile_eq_some (sorted : List Int) (p : Int) (hne : sorted ≠ []) (hp : p ≤ 100) :
    ∃ h : rankIndex sorted.length p < sorted.length,
      percentile sorted p = some (sorted.get ⟨rankIndex sorted.length p, h⟩) := by
  have hpos : 0 < sorted.length := List.length_pos.mpr hne
  have h := rankIndex_lt sorted.length hpos hp
  refine ⟨h, ?_⟩
  rw [percentile_eq_getElem sorted p hne, List.getElem?_eq_getElem h]
  rfl

/-! ## Lemmas on `Record` -/

theorem Record_TotalRequests (m : Metrics) (r : RequestResult) :
    (Record m r).TotalRequests = m.TotalRequests + 1 := by
  unfold Record
  simp only
  split_ifs <;> rfl

theorem wrap64_of_range (x : Int) (h1 : -9223372036854775808 ≤ x)
    (h2 : x < 9223372036854775808) : wrap64 x = x := by
  unfold wrap64
  omega

theorem wrap64_range (x : Int) :
    -9223372036854775808 ≤ wrap64 x ∧ wrap64 x < 9223372036854775808 := by
  unfold wrap64
  omega

theorem wrap64_add_left (a b : Int) : wrap64 (wrap64 a + b) = wrap64 (a + b) := by
  unfold wrap64
  omega

theorem Record_TotalLatency (m : Metrics) (r : RequestResult) :
    (Record m r).TotalLatency = wrap64 (m.TotalLatency + r.Latency) := by
  unfold Record
  simp only
  split_ifs <;> rfl

theorem Record_TotalErrors (m : Metrics) (r : RequestResult) :
    (Record m r).TotalErrors = m.TotalErrors + (if r.IsError then 1 else 0) := by
  unfold Record
  simp only
  split_ifs <;> simp

theorem Record_TotalBytes (m : Metrics) (r : RequestResult) :
    (Record m r).TotalBytes =
      if r.IsError then m.TotalBytes else wrap64 (m.TotalBytes + r.Size) := by
  unfold Record
  simp only
  split_ifs <;> rfl

theorem Record_StatusCodeCounts (m : Metrics) (r : RequestResult) :
    (Record m r).StatusCodeCounts =
      if r.IsError then m.StatusCodeCounts else bump m.StatusCodeCounts r.StatusCode := by
  unfold Record
  simp only
  split_ifs <;> rfl

theorem Record_maxLatencies (m : Metrics) (r : RequestResult) :
    (Record m r).maxLatencies = m.maxLatencies := by
  unfold Record
  simp only
  split_ifs <;> rfl

theorem Record_maxRecentResults (m : Metrics) (r : RequestResult) :
    (Record m r).maxRecentResults = m.maxRecentResults := by
  unfold Record
  simp only
  split_ifs <;> rfl

theorem Record_WindowStart (m : Metrics) (r : RequestResult) :
    (Record m r).WindowStart = m.WindowStart := by
  unfold Record
  simp only
  split_ifs <;> rfl

theorem Record_Latencies (m : Metrics) (r : RequestResult) :
    (Record m r).Latencies =
      if ((m.Latencies ++ [r.Latency]).length : Int) > m.maxLatencies
      then (m.Latencies ++ [r.Latency]).drop 1 else m.Latencies ++ [r.Latency] := by
  unfold Record
  simp only
  split_ifs <;> rfl

theorem Record_RecentResults (m : Metrics) (r : RequestResult) :
    (Record m r).RecentResults =
      if ((m.RecentResults ++ [r]).length : Int) > m.maxRecentResults
      then (m.RecentResults ++ [r]).drop 1 else m.RecentResults ++ [r] := by
  unfold Record
  simp only
  split_ifs <;> rfl

theorem recordAll_append (m : Metrics) (rs : List RequestResult) (r : RequestResult) :
    recordAll m (rs ++ [r]) = Record (recordAll m rs) r := by
  simp [recordAll, List.foldl_append]

/-! ## Lemmas on the histogram -/

theorem countOf_bump (h : List (Int × Int)) (c code : Int) :
    countOf (bump h c) code = countOf h code + (if code = c then 1 else 0) := by
  induction h with
  | nil =>
    by_cases hc : c = code
    · subst hc
      simp [bump, countOf]
    · have hc2 : ¬ code = c := fun e => hc e.symm
      simp [bump, countOf, hc, hc2]
  | cons e rest ih =>
    obtain ⟨k, v⟩ := e
    by_cases hk : k = c
    · subst hk
      by_cases hkc : k = code
      · subst hkc
        simp [bump, countOf]
      · have hkc2 : ¬ code = k := fun e => hkc e.symm
        simp [bump, countOf, hkc, hkc2]
    · by_cases hkc : k = code
      · subst hkc
        simp [bump, countOf, hk]
      · simp [bump, countOf, hk, hkc, ih]

theorem sumWhere_bump (f : Int → Bool) (h : List (Int × Int)) (c : Int) :
    sumWhere f (bump h c) = sumWhere f h + (if f c then 1 else 0) := by
  induction h with
  | nil => simp [bump, sumWhere]
  | cons e rest ih =>
    obtain ⟨k, v⟩ := e
    by_cases hk : k = c
    · subst hk
      by_cases hf : f k = true
      · simp [bump, sumWhere, hf]
        ring
      · simp [bump, sumWhere, hf]
    · simp [bump, sumWhere, hk, ih]
      ring

/-! ## Lemmas on `GetStats` -/

theorem foldl_countClass (h : List (Int × Int)) (st : Stats) :
    h.foldl countClass st =
      { st with StatusCode2xx := st.StatusCode2xx + sumWhere is2xx h
                StatusCode4xx := st.StatusCode4xx + sumWhere is4xx h
                StatusCode5xx := st.StatusCode5xx + sumWhere is5xx h } := by
  induction h generalizing st with
  | nil => simp [sumWhere]
  | cons e rest ih =>
    obtain ⟨k, v⟩ := e
    rw [List.foldl_cons, ih]
    unfold countClass
    simp only [sumWhere, is2xx, is4xx, is5xx]
    by_cases h2 : k ≥ 200 ∧ k < 300
    · have h4 : ¬ (400 ≤ k) := by omega
      have h5 : ¬ (500 ≤ k) := by omega
      simp [h2, h4, h5, add_assoc]
    · by_cases h4 : k ≥ 400 ∧ k < 500
      · have h2a : ¬ (200 ≤ k ∧ k < 300) := by omega
        have h5 : ¬ (500 ≤ k) := by omega
        simp [h2a, h4, h5, add_assoc]
      · by_cases h5 : k ≥ 500
        · have h2a : ¬ (k < 300) := by omega
          have h4a : ¬ (k < 500) := by omega
          simp [h2a, h4a, h5, add_assoc]
        · have h2a : ¬ (200 ≤ k ∧ k < 300) := by omega
          have h4a : ¬ (400 ≤ k ∧ k < 500) := by omega
          simp only [if_neg h2, if_neg h4, if_neg h5]
          simp [h2a, h4a, h5]

theorem statsCounters_eq (m : Metrics) (now : Int) :
    statsCounters m now =
      { P50 := 0, P95 := 0, P99 := 0
        AvgLatency := if m.TotalRequests > 0 then goDiv m.TotalLatency m.TotalRequests else 0
        MinLatency := 0, MaxLatency := 0
        Throughput :=
          if durationSeconds (timeSub now m.WindowStart) > 0
          then f64 (f64 (m.TotalRequests : ℚ) / durationSeconds (timeSub now m.WindowStart))
          else 0
        ErrorRate :=
          if m.TotalRequests > 0
          then f64 (f64 (f64 (m.TotalErrors : ℚ) / f64 (m.TotalRequests : ℚ)) * 100) else 0
        AvgSize := if m.TotalRequests > 0 then goDiv m.TotalBytes m.TotalRequests else 0
        TotalRequests := m.TotalRequests, TotalErrors := m.TotalErrors
        StatusCode2xx := sumWhere is2xx m.StatusCodeCounts
        StatusCode4xx := sumWhere is4xx m.StatusCodeCounts
        StatusCode5xx := sumWhere is5xx m.StatusCodeCounts } := by
  unfold statsCounters
  simp only [foldl_countClass]
  split_ifs <;> simp

theorem GetStats_of_nil (m : Metrics) (now : Int) (h : m.Latencies = []) :
    GetStats m now = some (statsCounters m now) := by
  unfold GetStats
  simp [h]

theorem length_sortAscending (l : List Int) : (sortAscending l).length = l.length :=
  List.length_insertionSort _ l

theorem sorted_sortAscending (l : List Int) : List.Sorted (· ≤ ·) (sortAscending l) :=
  List.sorted_insertionSort _ l

theorem GetStats_of_ne (m : Metrics) (now : Int) (h : m.Latencies ≠ []) :
    ∃ mn mx p50 p95 p99 : Int,
      (sortAscending m.Latencies)[0]? = some mn ∧
      (sortAscending m.Latencies)[m.Latencies.length - 1]? = some mx ∧
      (sortAscending m.Latencies)[rankIndex m.Latencies.length 50]? = some p50 ∧
      (sortAscending m.Latencies)[rankIndex m.Latencies.length 95]? = some p95 ∧
      (sortAscending m.Latencies)[rankIndex m.Latencies.length 99]? = some p99 ∧
      GetStats m now =
        some { statsCounters m now with
               MinLatency := mn, MaxLatency := mx, P50 := p50, P95 := p95, P99 := p99 } := by
  have hpos : 0 < m.Latencies.length := List.length_pos.mpr h
  have hlen := length_sortAscending m.Latencies
  have hne : sortAscending m.Latencies ≠ [] := by
    intro e
    rw [e] at hlen
    simp at hlen
    omega
  have hpos2 : 0 < (sortAscending m.Latencies).length := by omega
  have hlast : m.Latencies.length - 1 < (sortAscending m.Latencies).length := by omega
  have h50 : rankIndex m.Latencies.length 50 < (sortAscending m.Latencies).length := by
    rw [hlen]
    exact rankIndex_lt _ hpos (by decide)
  have h95 : rankIndex m.Latencies.length 95 < (sortAscending m.Latencies).length := by
    rw [hlen]
    exact rankIndex_lt _ hpos (by decide)
  have h99 : rankIndex m.Latencies.length 99 < (sortAscending m.Latencies).length := by
    rw [hlen]
    exact rankIndex_lt _ hpos (by decide)
  refine ⟨(sortAscending m.Latencies)[0], (sortAscending m.Latencies)[m.Latencies.length - 1],
    (sortAscending m.Latencies)[rankIndex m.Latencies.length 50],
    (sortAscending m.Latencies)[rankIndex m.Latencies.length 95],
    (sortAscending m.Latencies)[rankIndex m.Latencies.length 99],
    List.getElem?_eq_getElem hpos2, List.getElem?_eq_getElem hlast,
    List.getElem?_eq_getElem h50, List.getElem?_eq_getElem h95,
    List.getElem?_eq_getElem h99, ?_⟩
  unfold GetStats
  simp only [hpos, if_true]
  rw [percentile_eq_getElem _ 50 hne, percentile_eq_getElem _ 95 hne,
    percentile_eq_getElem _ 99 hne, hlen]
  rw [List.getElem?_eq_getElem hpos2, List.getElem?_eq_getElem hlast,
    List.getElem?_eq_getElem h50, List.getElem?_eq_getElem h95,
    List.getElem?_eq_getElem h99]
  rfl

theorem GetStats_counters (m : Metrics) (now : Int) :
    ∃ s, GetStats m now = some s ∧
      s.AvgLatency = (statsCounters m now).AvgLatency ∧
      s.Throughput = (statsCounters m now).Throughput ∧
      s.ErrorRate = (statsCounters m now).ErrorRate ∧
      s.AvgSize = (statsCounters m now).AvgSize ∧
      s.TotalRequests = (statsCounters m now).TotalRequests ∧
      s.TotalErrors = (statsCounters m now).TotalErrors ∧
      s.StatusCode2xx = (statsCounters m now).StatusCode2xx ∧
      s.StatusCode4xx = (statsCounters m now).StatusCode4xx ∧
      s.StatusCode5xx = (statsCounters m now).StatusCode5xx := by
  by_cases h : m.Latencies = []
  · exact ⟨_, GetStats_of_nil m now h, rfl, rfl, rfl, rfl, rfl, rfl, rfl, rfl, rfl⟩
  · obtain ⟨mn, mx, p50, p95, p99, -, -, -, -, -, hs⟩ := GetStats_of_ne m now h
    exact ⟨_, hs, rfl, rfl, rfl, rfl, rfl, rfl, rfl, rfl, rfl⟩

theorem sorted_getElem?_le {l : List Int} (hl : List.Sorted (· ≤ ·) l) {i j : Nat} (hij : i ≤ j)
    {a b : Int} (ha : l[i]? = some a) (hb : l[j]? = some b) : a ≤ b := by
  obtain ⟨hi, rfl⟩ := List.getElem?_eq_some_iff.mp ha
  obtain ⟨hj, rfl⟩ := List.getElem?_eq_some_iff.mp hb
  have h : (⟨i, hi⟩ : Fin l.length) ≤ ⟨j, hj⟩ := hij
  exact hl.rel_get_of_le h

/-! ## Invariants of the reachable states -/

theorem recordAll_window (C now : Int) (rs : List RequestResult) (hC : 0 < C) :
    (recordAll (NewMetrics C now) rs).maxLatencies = C ∧
    (recordAll (NewMetrics C now) rs).TotalRequests = (rs.length : Int) ∧
    (recordAll (NewMetrics C now) rs).Latencies =
      (rs.map fun r => r.Latency).drop (rs.length - C.toNat) := by
  induction rs using List.reverseRecOn with
  | nil =>
    have hC2 : ¬ C ≤ 0 := by omega
    simp [recordAll, NewMetrics, hC2]
  | append_singleton rs r ih =>
    obtain ⟨h1, h2, h3⟩ := ih
    rw [recordAll_append]
    refine ⟨by rw [Record_maxLatencies, h1], ?_, ?_⟩
    · rw [Record_TotalRequests, h2]
      simp
    · rw [Record_Latencies, h1, h3]
      simp only [List.length_append, List.length_drop, List.length_map, List.length_singleton,
        List.map_append, List.map_cons, List.map_nil]
      by_cases hn : C.toNat ≤ rs.length
      · have hcond : ((rs.length - (rs.length - C.toNat) + 1 : Nat) : Int) > C := by omega
        rw [if_pos hcond]
        rw [← List.drop_append_of_le_length (by simp), List.drop_drop]
        congr 1
        omega
      · have hcond : ¬ ((rs.length - (rs.length - C.toNat) + 1 : Nat) : Int) > C := by omega
        rw [if_neg hcond]
        have e1 : rs.length - C.toNat = 0 := by omega
        have e2 : rs.length + 1 - C.toNat = 0 := by omega
        rw [e1, e2]
        simp

theorem run_errors_le (m : Metrics) (calls : List Call)
    (h : 0 ≤ m.TotalErrors ∧ m.TotalErrors ≤ m.TotalRequests) :
    0 ≤ (run m calls).TotalErrors ∧ (run m calls).TotalErrors ≤ (run m calls).TotalRequests := by
  induction calls generalizing m with
  | nil => exact h
  | cons c rest ih =>
    have hstep : run m (c :: rest) = run (applyCall m c) rest := rfl
    rw [hstep]
    apply ih
    cases c with
    | record r =>
      simp only [applyCall, Record_TotalErrors, Record_TotalRequests]
      split_ifs <;> omega
    | reset now =>
      simp [applyCall, Reset]

theorem recordAll_sumWhere (f : Int → Bool) (m : Metrics) (rs : List RequestResult) :
    sumWhere f (recordAll m rs).StatusCodeCounts =
      sumWhere f m.StatusCodeCounts + successesWhere f rs := by
  induction rs generalizing m with
  | nil => simp [recordAll, successesWhere]
  | cons r rest ih =>
    have hstep : recordAll m (r :: rest) = recordAll (Record m r) rest := rfl
    rw [hstep, ih, Record_StatusCodeCounts]
    unfold successesWhere
    by_cases he : r.IsError = true
    · simp [he, List.filter_cons]
    · have he2 : r.IsError = false := by simpa using he
      rw [if_neg he, sumWhere_bump]
      by_cases hf : f r.StatusCode = true
      · simp [he2, hf, List.filter_cons]
        ring
      · simp [he2, hf, List.filter_cons]

/-! ## The claims -/

/-- C1, as stated, fails: in the ascending slice `[10, 20]` the index
`ceil((n-1)*50/100)` is `1`, whose element is `20`, while `percentile` returns `10`,
the element at index `0`, and `GetStats` reports `P50 = 10` for a window that holds
these two latencies. -/
theorem percentile_index_counterexample :
    List.Sorted (· ≤ ·) ([10, 20] : List Int) ∧
    ([10, 20] : List Int)[Int.toNat ⌈(((([10, 20] : List Int).length : ℕ) : ℚ) - 1)
      * ((50 : Int) : ℚ) / 100⌉]? = some 20 ∧
    percentile [10, 20] 50 = some 10 ∧
    sortAscending sampleWindow.Latencies = [10, 20] ∧
    ∃ s, GetStats sampleWindow 0 = some s ∧ s.P50 = 10 := by
  have hceil : ⌈(((([10, 20] : List Int).length : ℕ) : ℚ) - 1) * ((50 : Int) : ℚ) / 100⌉ = 1 := by
    rw [Int.ceil_eq_iff]
    norm_num
  have hL : sampleWindow.Latencies = [20, 10] := by decide
  have hne : sampleWindow.Latencies ≠ [] := by decide
  refine ⟨by decide, ?_, by decide, by decide, ?_⟩
  · rw [hceil]
    rfl
  · obtain ⟨mn, mx, p50, p95, p99, -, -, h50, -, -, hs⟩ := GetStats_of_ne sampleWindow 0 hne
    refine ⟨_, hs, ?_⟩
    rw [hL] at h50
    have h50b : (sortAscending [20, 10])[rankIndex [20, 10].length 50]? = some 10 := by decide
    exact Option.some.inj (h50.symm.trans h50b)

/-- C1, amended: for every non-empty slice `sorted` of length `n` (ascending or not)
and every `p` in `{50, 95, 99}`, `percentile(sorted, p)` returns the element at index
`max(ceil((n-1)*p/100) - 1, 0)`, which is inside the slice; and for every window with
a non-empty latency sequence `GetStats` returns, and its `P50`, `P95` and `P99` are
the elements at these indices of the ascending rearrangement of the latencies. -/
theorem percentile_index_amended (sorted : List Int) (p : Int) (m : Metrics) (now : Int)
    (hne : sorted ≠ []) (hp : p = 50 ∨ p = 95 ∨ p = 99) (hm : m.Latencies ≠ []) :
    (∃ h : Int.toNat (⌈((sorted.length : ℚ) - 1) * (p : ℚ) / 100⌉ - 1) < sorted.length,
      percentile sorted p =
        some (sorted.get ⟨Int.toNat (⌈((sorted.length : ℚ) - 1) * (p : ℚ) / 100⌉ - 1), h⟩)) ∧
    (∃ s, GetStats m now = some s ∧
      (sortAscending m.Latencies)[Int.toNat
        (⌈((m.Latencies.length : ℚ) - 1) * ((50 : Int) : ℚ) / 100⌉ - 1)]? = some s.P50 ∧
      (sortAscending m.Latencies)[Int.toNat
        (⌈((m.Latencies.length : ℚ) - 1) * ((95 : Int) : ℚ) / 100⌉ - 1)]? = some s.P95 ∧
      (sortAscending m.Latencies)[Int.toNat
        (⌈((m.Latencies.length : ℚ) - 1) * ((99 : Int) : ℚ) / 100⌉ - 1)]? = some s.P99) := by
  constructor
  · have hp100 : p ≤ 100 := by omega
    simp only [← rankIndex_eq_ceil]
    exact percentile_eq_some sorted p hne hp100
  · obtain ⟨mn, mx, p50, p95, p99, -, -, h50, h95, h99, hs⟩ := GetStats_of_ne m now hm
    simp only [← rankIndex_eq_ceil]
    exact ⟨_, hs, h50, h95, h99⟩

/-- Witness of C1 amended: the slice `[10, 20]` with `p = 50` and the sample window. -/
theorem percentile_index_amended_witness :
    ([10, 20] : List Int) ≠ [] ∧ ((50 : Int) = 50 ∨ (50 : Int) = 95 ∨ (50 : Int) = 99) ∧
    sampleWindow.Latencies ≠ [] ∧
    (∃ h : Int.toNat (⌈((([10, 20] : List Int).length : ℚ) - 1) * ((50 : Int) : ℚ) / 100⌉ - 1)
        < ([10, 20] : List Int).length,
      percentile [10, 20] 50 =
        some (([10, 20] : List Int).get
          ⟨Int.toNat (⌈((([10, 20] : List Int).length : ℚ) - 1) * ((50 : Int) : ℚ) / 100⌉ - 1),
            h⟩)) :=
  ⟨by decide, by decide, by decide,
    (percentile_index_amended [10, 20] 50 sampleWindow 0 (by decide) (by decide) (by decide)).1⟩

/-- C2: for every capacity `C > 0` and every sequence of `N` calls of `Record` on a
fresh `NewMetrics(C)`: `TotalRequests = N`, the latency sequence has length
`min(N, C)` (so `N` when `N ≤ C` and exactly `C` when `N > C`), and it is the
recorded latencies without the first `N - C` (so all of them when `N ≤ C`, and the `C`
most recent in record order when `N > C`). -/
theorem record_window (C now : Int) (rs : List RequestResult) (hC : 0 < C) :
    (recordAll (NewMetrics C now) rs).TotalRequests = (rs.length : Int) ∧
    ((recordAll (NewMetrics C now) rs).Latencies.length : Int) = min (rs.length : Int) C ∧
    (recordAll (NewMetrics C now) rs).Latencies =
      (rs.map fun r => r.Latency).drop (rs.length - C.toNat) := by
  obtain ⟨-, h2, h3⟩ := recordAll_window C now rs hC
  refine ⟨h2, ?_, h3⟩
  rw [h3]
  simp only [List.length_drop, List.length_map]
  omega

/-- Witness of C2: capacity 2 and the three latencies 1, 2, 3. -/
theorem record_window_witness :
    (0 : Int) < 2 ∧
    (recordAll (NewMetrics 2 0) [sampleResult 1, sampleResult 2, sampleResult 3]).TotalRequests
      = (([sampleResult 1, sampleResult 2, sampleResult 3].length : Nat) : Int) ∧
    ((recordAll (NewMetrics 2 0)
      [sampleResult 1, sampleResult 2, sampleResult 3]).Latencies.length : Int)
      = min (([sampleResult 1, sampleResult 2, sampleResult 3].length : Nat) : Int) 2 ∧
    (recordAll (NewMetrics 2 0) [sampleResult 1, sampleResult 2, sampleResult 3]).Latencies =
      ([sampleResult 1, sampleResult 2, sampleResult 3].map fun r => r.Latency).drop
        ([sampleResult 1, sampleResult 2, sampleResult 3].length - (2 : Int).toNat) :=
  ⟨by decide, record_window 2 0 [sampleResult 1, sampleResult 2, sampleResult 3] (by decide)⟩

/-- C3, as stated, fails: after one error in three requests `GetStats` reports the
error rate `4691249611844266 / 2^47` (33.33333333333332859...), the result of the two
`float64` operations, which is below the exact rational `1 / 3 * 100`. -/
theorem errorRate_not_exact :
    oneErrorInThree.TotalErrors = 1 ∧ oneErrorInThree.TotalRequests = 3 ∧
    ∃ s, GetStats oneErrorInThree 0 = some s ∧
      s.ErrorRate = 4691249611844266 / 140737488355328 ∧
      s.ErrorRate ≠ (1 : ℚ) / 3 * 100 ∧ s.ErrorRate < (1 : ℚ) / 3 * 100 := by
  have he : oneErrorInThree.TotalErrors = 1 := by decide
  have ht : oneErrorInThree.TotalRequests = 3 := by decide
  obtain ⟨s, hs, -, -, hrate, -⟩ := GetStats_counters oneErrorInThree 0
  have hval : s.ErrorRate = 4691249611844266 / 140737488355328 := by
    rw [hrate, statsCounters_eq]
    simp only [he, ht]
    norm_num only [Int.cast_one, Int.cast_ofNat]
    rw [f64_one, f64_three, f64_third, f64_third_times_hundred]
    norm_num
  refine ⟨he, ht, s, hs, hval, ?_, ?_⟩
  · rw [hval]
    norm_num
  · rw [hval]
    norm_num

/-- C3, amended: in every state reached from `NewMetrics` by calls of `Record` and
`Reset`, `GetStats` returns; its error rate is exactly `0` when `TotalRequests` is `0`
and otherwise the `float64` value of `TotalErrors / TotalRequests * 100`, that is the
quotient of the two counters as `float64`, rounded, times `100`, rounded; and the rate
lies in `[0, 100]`. -/
theorem errorRate_bounds (C now0 : Int) (calls : List Call) (now : Int) :
    ∃ s, GetStats (run (NewMetrics C now0) calls) now = some s ∧
      s.ErrorRate =
        (if (run (NewMetrics C now0) calls).TotalRequests = 0 then 0
         else f64 (f64 (f64 ((run (NewMetrics C now0) calls).TotalErrors : ℚ) /
           f64 ((run (NewMetrics C now0) calls).TotalRequests : ℚ)) * 100)) ∧
      0 ≤ s.ErrorRate ∧ s.ErrorRate ≤ 100 := by
  obtain ⟨h0, hle⟩ := run_errors_le (NewMetrics C now0) calls (by simp [NewMetrics])
  obtain ⟨s, hs, -, -, hrate, -⟩ := GetStats_counters (run (NewMetrics C now0) calls) now
  refine ⟨s, hs, ?_⟩
  rw [hrate, statsCounters_eq]
  simp only
  generalize (run (NewMetrics C now0) calls).TotalErrors = e at h0 hle
  generalize (run (NewMetrics C now0) calls).TotalRequests = t at hle
  by_cases ht : t = 0
  · subst ht
    simp
  · have htpos : 0 < t := by omega
    have ht1 : (1 : ℚ) ≤ (t : ℚ) := by exact_mod_cast htpos
    have heq : (0 : ℚ) ≤ (e : ℚ) := by exact_mod_cast h0
    have hleq : (e : ℚ) ≤ (t : ℚ) := by exact_mod_cast hle
    have ha : 0 ≤ f64 (e : ℚ) := f64_nonneg _ heq
    have hab : f64 (e : ℚ) ≤ f64 (t : ℚ) := f64_mono_nonneg heq hleq
    have hb : 1 ≤ f64 (t : ℚ) := by
      have := f64_mono_nonneg (by norm_num : (0 : ℚ) ≤ 1) ht1
      rwa [f64_one] at this
    have hbpos : 0 < f64 (t : ℚ) := by linarith
    have hq0 : 0 ≤ f64 (e : ℚ) / f64 (t : ℚ) := div_nonneg ha (le_of_lt hbpos)
    have hq1 : f64 (e : ℚ) / f64 (t : ℚ) ≤ 1 := by
      rw [div_le_one hbpos]
      exact hab
    have hc0 : 0 ≤ f64 (f64 (e : ℚ) / f64 (t : ℚ)) := f64_nonneg _ hq0
    have hc1 : f64 (f64 (e : ℚ) / f64 (t : ℚ)) ≤ 1 := by
      have := f64_mono_nonneg hq0 hq1
      rwa [f64_one] at this
    have hd0 : 0 ≤ f64 (f64 (e : ℚ) / f64 (t : ℚ)) * 100 := by positivity
    have hd1 : f64 (f64 (e : ℚ) / f64 (t : ℚ)) * 100 ≤ 100 := by linarith
    rw [if_pos htpos, if_neg ht]
    refine ⟨rfl, f64_nonneg _ hd0, ?_⟩
    have := f64_mono_nonneg hd0 hd1
    rwa [f64_hundred] at this

/-- C4: for every window whose latency sequence is non-empty, `GetStats` returns
`Stats` with `P50 ≤ P95 ≤ P99`. -/
theorem percentiles_ordered (m : Metrics) (now : Int) (hm : m.Latencies ≠ []) :
    ∃ s, GetStats m now = some s ∧ s.P50 ≤ s.P95 ∧ s.P95 ≤ s.P99 := by
  obtain ⟨mn, mx, p50, p95, p99, -, -, h50, h95, h99, hs⟩ := GetStats_of_ne m now hm
  have hpos : 0 < m.Latencies.length := List.length_pos.mpr hm
  have hsorted := sorted_sortAscending m.Latencies
  refine ⟨_, hs, ?_, ?_⟩
  · exact sorted_getElem?_le hsorted (rankIndex_mono _ hpos (by decide)) h50 h95
  · exact sorted_getElem?_le hsorted (rankIndex_mono _ hpos (by decide)) h95 h99

/-- Witness of C4: the sample window. -/
theorem percentiles_ordered_witness :
    sampleWindow.Latencies ≠ [] ∧
    ∃ s, GetStats sampleWindow 0 = some s ∧ s.P50 ≤ s.P95 ∧ s.P95 ≤ s.P99 :=
  ⟨by decide, percentiles_ordered sampleWindow 0 (by decide)⟩

/-- C5: `DetermineStatus(latency, err)` is `Down` for every non-nil `err` and every
latency; for a nil `err` it is `Slow` when `latency > 500ms` and `Healthy` otherwise,
so `Slow` exactly when `latency > 500ms`; `500ms` is `Healthy` and `501ms` is `Slow`. -/
theorem determineStatus_spec :
    (∀ (latency : Int) (msg : String),
      DetermineStatus latency (some msg) = EndpointStatus.StatusDown) ∧
    (∀ latency : Int, DetermineStatus latency none =
      if latency > 500 * Millisecond then EndpointStatus.StatusSlow
      else EndpointStatus.StatusHealthy) ∧
    (∀ latency : Int, DetermineStatus latency none = EndpointStatus.StatusSlow ↔
      latency > 500 * Millisecond) ∧
    DetermineStatus (500 * Millisecond) none = EndpointStatus.StatusHealthy ∧
    DetermineStatus (501 * Millisecond) none = EndpointStatus.StatusSlow := by
  refine ⟨?_, ?_, ?_, by decide, by decide⟩
  · intro latency msg
    simp [DetermineStatus]
  · intro latency
    simp [DetermineStatus]
  · intro latency
    by_cases h : latency > 500 * Millisecond
    · simp [DetermineStatus, h]
    · simp [DetermineStatus, h]

/-- C6: for every window, `Reset` empties both sequences and the histogram, and
`GetStats` after it returns `Stats` in which the totals, the error rate, the average
latency, the average size, the three status classes, the three percentiles and the
minimum and maximum latency (and the throughput) are all `0`. -/
theorem reset_then_getStats (m : Metrics) (now1 now2 : Int) :
    (Reset m now1).Latencies = [] ∧ (Reset m now1).RecentResults = [] ∧
    (Reset m now1).StatusCodeCounts = [] ∧
    ∃ s, GetStats (Reset m now1) now2 = some s ∧
      s.TotalRequests = 0 ∧ s.TotalErrors = 0 ∧ s.ErrorRate = 0 ∧ s.AvgLatency = 0 ∧
      s.AvgSize = 0 ∧ s.StatusCode2xx = 0 ∧ s.StatusCode4xx = 0 ∧ s.StatusCode5xx = 0 ∧
      s.P50 = 0 ∧ s.P95 = 0 ∧ s.P99 = 0 ∧ s.MinLatency = 0 ∧ s.MaxLatency = 0 ∧
      s.Throughput = 0 := by
  refine ⟨rfl, rfl, rfl, _, GetStats_of_nil (Reset m now1) now2 rfl, ?_⟩
  rw [statsCounters_eq]
  simp [Reset, sumWhere, f64_zero]

/-- C7: for every window and every result `r`, `Record(r)` adds `1` to
`TotalRequests` and `r.Latency` to `TotalLatency`; when `r.IsError` it adds `1` to
`TotalErrors` and leaves `TotalBytes` and every bucket of the histogram as they were;
otherwise it leaves `TotalErrors`, adds `r.Size` to `TotalBytes`, adds `1` to the
bucket `r.StatusCode` and leaves the other buckets.  The two additions of
`r.Latency` and `r.Size` are the `+=` of Go on `int64`: the sum modulo `2^64`, which
is the sum itself whenever that is within the `int64` range. -/
theorem record_counters (m : Metrics) (r : RequestResult) :
    (Record m r).TotalRequests = m.TotalRequests + 1 ∧
    (Record m r).TotalLatency = wrap64 (m.TotalLatency + r.Latency) ∧
    (Record m r).TotalErrors = m.TotalErrors + (if r.IsError then 1 else 0) ∧
    (Record m r).TotalBytes =
      (if r.IsError then m.TotalBytes else wrap64 (m.TotalBytes + r.Size)) ∧
    (∀ x : Int, -9223372036854775808 ≤ x → x ≤ MaxInt64 → wrap64 x = x) ∧
    (Record m r).StatusCodeCounts =
      (if r.IsError then m.StatusCodeCounts else bump m.StatusCodeCounts r.StatusCode) ∧
    ∀ code : Int, countOf (Record m r).StatusCodeCounts code =
      countOf m.StatusCodeCounts code +
        (if r.IsError = false ∧ code = r.StatusCode then 1 else 0) := by
  refine ⟨Record_TotalRequests m r, Record_TotalLatency m r, Record_TotalErrors m r,
    Record_TotalBytes m r, ?_, Record_StatusCodeCounts m r, ?_⟩
  · intro x h1 h2
    unfold MaxInt64 at h2
    exact wrap64_of_range x h1 (by omega)
  intro code
  rw [Record_StatusCodeCounts]
  by_cases he : r.IsError = true
  · simp [he]
  · have he2 : r.IsError = false := by simpa using he
    rw [if_neg he, countOf_bump]
    simp [he2]

/-- C8: after any sequence `rs` of results recorded since a `Reset` (or since
`NewMetrics`), `GetStats` returns `Stats` whose `StatusCode2xx`, `StatusCode4xx` and
`StatusCode5xx` are the numbers of results of `rs` that are not errors and whose
status code lies in `[200, 300)`, `[400, 500)` and `[500, ∞)`. -/
theorem statusClass_counts (m0 : Metrics) (C now0 : Int) (rs : List RequestResult)
    (now : Int) :
    (∃ s, GetStats (recordAll (Reset m0 now0) rs) now = some s ∧
      s.StatusCode2xx = successesWhere is2xx rs ∧
      s.StatusCode4xx = successesWhere is4xx rs ∧
      s.StatusCode5xx = successesWhere is5xx rs) ∧
    (∃ s, GetStats (recordAll (NewMetrics C now0) rs) now = some s ∧
      s.StatusCode2xx = successesWhere is2xx rs ∧
      s.StatusCode4xx = successesWhere is4xx rs ∧
      s.StatusCode5xx = successesWhere is5xx rs) := by
  constructor
  · obtain ⟨s, hs, -, -, -, -, -, -, h2, h4, h5⟩ :=
      GetStats_counters (recordAll (Reset m0 now0) rs) now
    refine ⟨s, hs, ?_, ?_, ?_⟩
    · rw [h2, statsCounters_eq]
      simp [recordAll_sumWhere, Reset, sumWhere]
    · rw [h4, statsCounters_eq]
      simp [recordAll_sumWhere, Reset, sumWhere]
    · rw [h5, statsCounters_eq]
      simp [recordAll_sumWhere, Reset, sumWhere]
  · obtain ⟨s, hs, -, -, -, -, -, -, h2, h4, h5⟩ :=
      GetStats_counters (recordAll (NewMetrics C now0) rs) now
    refine ⟨s, hs, ?_, ?_, ?_⟩
    · rw [h2, statsCounters_eq]
      simp [recordAll_sumWhere, NewMetrics, sumWhere]
    · rw [h4, statsCounters_eq]
      simp [recordAll_sumWhere, NewMetrics, sumWhere]
    · rw [h5, statsCounters_eq]
      simp [recordAll_sumWhere, NewMetrics, sumWhere]

set_option maxRecDepth 100000 in
/-- C9: recording the ten results of the scenario (latencies 10ms, ..., 100ms, status
200, no error) into a fresh window of capacity 1000 gives `Stats` with
`40ms ≤ P50 ≤ 60ms`, `P95 ≥ 80ms`, `P99 ≥ 90ms` and `StatusCode2xx = 10`; the
percentiles are `50ms`, `90ms` and `90ms`. -/
theorem percentiles_scenario (now0 now : Int) :
    ∃ s, GetStats (recordAll (NewMetrics 1000 now0) percentilesScenario) now = some s ∧
      40 * Millisecond ≤ s.P50 ∧ s.P50 ≤ 60 * Millisecond ∧
      s.P95 ≥ 80 * Millisecond ∧ s.P99 ≥ 90 * Millisecond ∧ s.StatusCode2xx = 10 ∧
      s.P50 = 50 * Millisecond ∧ s.P95 = 90 * Millisecond ∧ s.P99 = 90 * Millisecond := by
  have hL : (recordAll (NewMetrics 1000 now0) percentilesScenario).Latencies =
      [10000000, 20000000, 30000000, 40000000, 50000000, 60000000, 70000000, 80000000,
        90000000, 100000000] := by
    have hmap : (percentilesScenario.map fun r => r.Latency) =
        [10000000, 20000000, 30000000, 40000000, 50000000, 60000000, 70000000, 80000000,
          90000000, 100000000] := by decide
    have hlen : percentilesScenario.length - (1000 : Int).toNat = 0 := by
      simp [percentilesScenario]
    rw [(recordAll_window 1000 now0 percentilesScenario (by decide)).2.2, hmap, hlen]
    rfl
  have hne : (recordAll (NewMetrics 1000 now0) percentilesScenario).Latencies ≠ [] := by
    rw [hL]
    decide
  obtain ⟨mn, mx, p50, p95, p99, -, -, h50, h95, h99, hs⟩ :=
    GetStats_of_ne (recordAll (NewMetrics 1000 now0) percentilesScenario) now hne
  rw [hL] at h50 h95 h99
  have g50 : (sortAscending [10000000, 20000000, 30000000, 40000000, 50000000, 60000000,
      70000000, 80000000, 90000000, 100000000])[rankIndex
        [10000000, 20000000, 30000000, 40000000, 50000000, 60000000, 70000000, 80000000,
          90000000, 100000000].length 50]? = some 50000000 := by decide
  have g95 : (sortAscending [10000000, 20000000, 30000000, 40000000, 50000000, 60000000,
      70000000, 80000000, 90000000, 100000000])[rankIndex
        [10000000, 20000000, 30000000, 40000000, 50000000, 60000000, 70000000, 80000000,
          90000000, 100000000].length 95]? = some 90000000 := by decide
  have g99 : (sortAscending [10000000, 20000000, 30000000, 40000000, 50000000, 60000000,
      70000000, 80000000, 90000000, 100000000])[rankIndex
        [10000000, 20000000, 30000000, 40000000, 50000000, 60000000, 70000000, 80000000,
          90000000, 100000000].length 99]? = some 90000000 := by decide
  have e50 : p50 = 50000000 := Option.some.inj (h50.symm.trans g50)
  have e95 : p95 = 90000000 := Option.some.inj (h95.symm.trans g95)
  have e99 : p99 = 90000000 := Option.some.inj (h99.symm.trans g99)
  have h2 : (statsCounters (recordAll (NewMetrics 1000 now0) percentilesScenario) now).StatusCode2xx
      = 10 := by
    rw [statsCounters_eq]
    simp only
    rw [recordAll_sumWhere]
    have h0 : (NewMetrics 1000 now0).StatusCodeCounts = [] := rfl
    rw [h0]
    decide
  subst e50 e95 e99
  refine ⟨_, hs, ?_, ?_, ?_, ?_, ?_, ?_, ?_, ?_⟩
  · show 40 * Millisecond ≤ (50000000 : Int)
    decide
  · show (50000000 : Int) ≤ 60 * Millisecond
    decide
  · show (90000000 : Int) ≥ 80 * Millisecond
    decide
  · show (90000000 : Int) ≥ 90 * Millisecond
    decide
  · simp only
    exact h2
  · show (50000000 : Int) = 50 * Millisecond
    decide
  · show (90000000 : Int) = 90 * Millisecond
    decide
  · show (90000000 : Int) = 90 * Millisecond
    decide

/-- C10: for every window that holds exactly one latency `v`, `GetStats` returns
`Stats` with `P50 = P95 = P99 = v`; and `percentile` of the one-element slice `[v]` is
`v` for every `p`. -/
theorem percentile_single (m : Metrics) (now v : Int) (hm : m.Latencies = [v]) :
    (∃ s, GetStats m now = some s ∧ s.P50 = v ∧ s.P95 = v ∧ s.P99 = v) ∧
    ∀ p : Int, percentile [v] p = some v := by
  constructor
  · have hne : m.Latencies ≠ [] := by
      rw [hm]
      exact List.cons_ne_nil _ _
    obtain ⟨mn, mx, p50, p95, p99, -, -, h50, h95, h99, hs⟩ := GetStats_of_ne m now hne
    rw [hm] at h50 h95 h99
    simp only [List.length_singleton, rankIndex_one, sortAscending, List.insertionSort,
      List.orderedInsert, List.getElem?_cons_zero, Option.some.injEq] at h50 h95 h99
    exact ⟨_, hs, h50.symm, h95.symm, h99.symm⟩
  · intro p
    simp [percentile]

/-- Witness of C10: a window of capacity 5 after one result of latency 7. -/
theorem percentile_single_witness :
    (Record (NewMetrics 5 0) (sampleResult 7)).Latencies = [7] ∧
    ((∃ s, GetStats (Record (NewMetrics 5 0) (sampleResult 7)) 1 = some s ∧
        s.P50 = 7 ∧ s.P95 = 7 ∧ s.P99 = 7) ∧
      ∀ p : Int, percentile [7] p = some 7) :=
  ⟨by decide, percentile_single (Record (NewMetrics 5 0) (sampleResult 7)) 1 7 (by decide)⟩

/-! ## Lemmas for the second group of claims -/

theorem goDiv_eq_quotTowardZero (a b : Int) (hb : 0 < b) :
    goDiv a b = quotTowardZero a b := by
  have hcast : ((b.toNat : ℕ) : Int) = b := Int.toNat_of_nonneg (le_of_lt hb)
  have hq : ((b.toNat : ℕ) : ℚ) = (b : ℚ) := by
    rw [← Int.cast_natCast, hcast]
  unfold goDiv quotTowardZero
  by_cases ha : 0 ≤ a
  · rw [if_pos ha, Int.tdiv_eq_ediv ha (le_of_lt hb)]
    have h := Rat.floor_intCast_div_natCast a b.toNat
    rw [hq, hcast] at h
    exact h.symm
  · rw [if_neg ha]
    have hna : 0 ≤ -a := by omega
    have h1 : a.tdiv b = -((-a).tdiv b) := by
      rw [Int.neg_tdiv, neg_neg]
    rw [h1, Int.tdiv_eq_ediv hna (le_of_lt hb)]
    have h := Rat.floor_intCast_div_natCast (-a) b.toNat
    rw [hq, hcast] at h
    have h2 : ((-a : Int) : ℚ) / (b : ℚ) = -((a : ℚ) / (b : ℚ)) := by
      push_cast
      ring
    rw [h2, Int.floor_neg] at h
    omega

theorem recordAll_totals (m : Metrics) (rs : List RequestResult)
    (hm : wrap64 m.TotalLatency = m.TotalLatency) :
    (recordAll m rs).TotalRequests = m.TotalRequests + (rs.length : Int) ∧
    (recordAll m rs).TotalLatency =
      wrap64 (m.TotalLatency + (rs.map fun r => r.Latency).sum) := by
  induction rs generalizing m with
  | nil => simp [recordAll, hm]
  | cons r rest ih =>
    have hstep : recordAll m (r :: rest) = recordAll (Record m r) rest := rfl
    rw [hstep]
    have hr : wrap64 (Record m r).TotalLatency = (Record m r).TotalLatency := by
      rw [Record_TotalLatency]
      exact wrap64_of_range _ (wrap64_range _).1 (wrap64_range _).2
    obtain ⟨h1, h2⟩ := ih (Record m r) hr
    rw [h1, h2, Record_TotalRequests, Record_TotalLatency]
    simp only [List.length_cons, List.map_cons, List.sum_cons]
    constructor
    · push_cast
      ring
    · rw [wrap64_add_left, add_assoc]

theorem SetConcurrency_concurrency (lt : LoadTester) (n : Int) :
    (lt.SetConcurrency n).concurrency =
      if (if n < 1 then 1 else n) > lt.maxConcur then lt.maxConcur
      else (if n < 1 then 1 else n) := by
  unfold LoadTester.SetConcurrency
  simp only
  split_ifs <;> rfl

theorem SetConcurrency_maxConcur (lt : LoadTester) (n : Int) :
    (lt.SetConcurrency n).maxConcur = lt.maxConcur := by
  unfold LoadTester.SetConcurrency
  simp only
  split_ifs <;> rfl

theorem lookupTester_append_new (testers : List (String × LoadTester)) (url : String)
    (t : LoadTester) (h : lookupTester testers url = none) :
    lookupTester (testers ++ [(url, t)]) url = some t := by
  induction testers with
  | nil => simp [lookupTester]
  | cons e rest ih =>
    obtain ⟨k, v⟩ := e
    by_cases hk : k = url
    · simp [lookupTester, hk] at h
    · simp only [lookupTester, if_neg hk] at h
      simp only [List.cons_append, lookupTester, if_neg hk]
      exact ih h

theorem SetRPS_rps (lg : LoadGenerator) (rps : Int) :
    (lg.SetRPS rps).state.rps = max rps 1 := by
  have hmax : (if rps < 1 then 1 else rps) = max rps 1 := by
    split_ifs <;> omega
  unfold LoadGenerator.SetRPS
  simp only [hmax]
  cases lg.tickers with
  | nil => rfl
  | cons t rest =>
    simp only
    cases (tickInterval (max rps 1)).bind t.Reset <;> rfl

theorem runGenerator_rps (lg : LoadGenerator) (url : String) :
    (lg.runGenerator url).state.rps = lg.rps := by
  unfold LoadGenerator.runGenerator
  cases (tickInterval lg.rps).bind (NewTicker url) <;> rfl

theorem startTester_rps (lg : LoadGenerator) (url : String) :
    (lg.startTester url).state.rps = lg.rps := by
  unfold LoadGenerator.startTester
  cases lookupTester lg.testers url with
  | none => rfl
  | some t =>
    simp only
    split_ifs
    · rw [runGenerator_rps]
    · rfl

theorem startAll_rps (lg : LoadGenerator) (urls : List String) :
    (lg.startAll urls).state.rps = lg.rps := by
  induction urls generalizing lg with
  | nil => rfl
  | cons url rest ih =>
    unfold LoadGenerator.startAll
    simp only
    split_ifs
    · exact startTester_rps lg url
    · rw [ih, startTester_rps]

theorem Start_rps (lg : LoadGenerator) (rps : Int) :
    (lg.Start rps).state.rps = if lg.running then lg.rps else max rps 1 := by
  have hmax : (if rps < 1 then 1 else rps) = max rps 1 := by
    split_ifs <;> omega
  unfold LoadGenerator.Start
  by_cases h : lg.running = true
  · simp [h]
  · simp only [h, if_false, Bool.false_eq_true]
    rw [startAll_rps, hmax]

theorem IncreaseRPS_rps (lg : LoadGenerator) :
    lg.IncreaseRPS.state.rps = max (wrap64 (lg.rps + 5)) 1 := by
  unfold LoadGenerator.IncreaseRPS
  exact SetRPS_rps lg _

theorem DecreaseRPS_rps (lg : LoadGenerator) :
    lg.DecreaseRPS.state.rps = max (wrap64 (lg.rps - 5)) 1 := by
  unfold LoadGenerator.DecreaseRPS
  simp only
  have h := SetRPS_rps lg (wrap64 (lg.rps - 5))
  split_ifs with h1 h2
  · exact h
  · rw [h] at h2
    omega
  · exact h

theorem tickInterval_pos (rps : Int) (h1 : 1 ≤ rps) (h2 : rps ≤ 1000000000) :
    ∃ d, tickInterval rps = some d ∧ 0 < d := by
  have hne : ¬ rps = 0 := by omega
  refine ⟨goDiv Second rps, ?_, ?_⟩
  · unfold tickInterval
    rw [if_neg hne]
  · unfold goDiv Second
    rw [Int.tdiv_eq_ediv (by decide) (by omega)]
    have : (1 : Int) ≤ 1000000000 / rps := Int.le_ediv_of_mul_le (by omega) (by omega)
    omega

theorem SetRPS_no_panic (lg : LoadGenerator) (rps : Int) (h : max rps 1 ≤ 1000000000) :
    (lg.SetRPS rps).panicked = false := by
  have hmax : (if rps < 1 then 1 else rps) = max rps 1 := by
    split_ifs <;> omega
  obtain ⟨d, hd, hpos⟩ := tickInterval_pos (max rps 1) (by omega) h
  unfold LoadGenerator.SetRPS
  simp only [hmax]
  cases lg.tickers with
  | nil => rfl
  | cons t rest =>
    have hreset : (tickInterval (max rps 1)).bind t.Reset =
        some { t with period := d, active := true } := by
      rw [hd]
      simp only [Option.bind, Ticker.Reset]
      rw [if_neg (by omega)]
    simp only [hreset]
    rfl

theorem DecreaseRPS_no_panic (lg : LoadGenerator)
    (h : max (wrap64 (lg.rps - 5)) 1 ≤ 1000000000) : lg.DecreaseRPS.panicked = false := by
  unfold LoadGenerator.DecreaseRPS
  simp only
  have h1 := SetRPS_no_panic lg (wrap64 (lg.rps - 5)) h
  have h2 := SetRPS_rps lg (wrap64 (lg.rps - 5))
  rw [h1]
  simp only [Bool.false_eq_true, if_false]
  split_ifs with h3
  · rw [h2] at h3
    omega
  · exact h1

theorem applyGenCall_rps (lg : LoadGenerator) (c : GenCall) (h : 1 ≤ lg.rps) :
    1 ≤ (applyGenCall lg c).state.rps := by
  cases c with
  | start rps =>
    simp only [applyGenCall, Start_rps]
    split_ifs <;> omega
  | setRPS rps =>
    simp only [applyGenCall, SetRPS_rps]
    omega
  | increaseRPS =>
    simp only [applyGenCall, IncreaseRPS_rps]
    omega
  | decreaseRPS =>
    simp only [applyGenCall, DecreaseRPS_rps]
    omega
  | stop =>
    simp only [applyGenCall, Outcome.ok, LoadGenerator.Stop]
    split_ifs <;> exact h
  | addTester endpoint metrics =>
    simp only [applyGenCall, Outcome.ok, LoadGenerator.AddTester]
    cases lookupTester lg.testers endpoint.URL <;> exact h
  | removeTester url =>
    simp only [applyGenCall, Outcome.ok, LoadGenerator.RemoveTester]
    cases lookupTester lg.testers url <;> exact h

theorem runCalls_rps (lg : LoadGenerator) (calls : List GenCall) (h : 1 ≤ lg.rps) :
    1 ≤ (runCalls lg calls).state.rps := by
  induction calls generalizing lg with
  | nil => exact h
  | cons c rest ih =>
    unfold runCalls
    simp only
    split_ifs
    · exact applyGenCall_rps lg c h
    · exact ih _ (applyGenCall_rps lg c h)

/-! ## The claims on averages, monotonic counters, testers and generators -/

/-- C11: for every window `GetStats` returns, and its `AvgLatency` is `TotalLatency`
divided by `TotalRequests`, rounded toward zero, when `TotalRequests` is positive and
`0` otherwise.  After a `Reset` (or a `NewMetrics`) followed by any results `rs`,
`TotalRequests` is the number of results and `TotalLatency` is the `int64` sum of the
latencies of all of `rs`, whether still in the window or evicted, so `AvgLatency` is
that sum divided by the number of results, and `0` when there is none. -/
theorem avgLatency_spec (m : Metrics) (now : Int) (m0 : Metrics) (C now0 : Int)
    (rs : List RequestResult) :
    (∃ s, GetStats m now = some s ∧
      s.AvgLatency =
        if m.TotalRequests > 0 then
          (if 0 ≤ m.TotalLatency then ⌊(m.TotalLatency : ℚ) / (m.TotalRequests : ℚ)⌋
           else ⌈(m.TotalLatency : ℚ) / (m.TotalRequests : ℚ)⌉)
        else 0) ∧
    ((recordAll (Reset m0 now0) rs).TotalRequests = (rs.length : Int) ∧
      (recordAll (Reset m0 now0) rs).TotalLatency =
        wrap64 (rs.map fun r => r.Latency).sum ∧
      ∃ s, GetStats (recordAll (Reset m0 now0) rs) now = some s ∧
        s.AvgLatency =
          if rs.length = 0 then 0
          else quotTowardZero (wrap64 (rs.map fun r => r.Latency).sum) (rs.length : Int)) ∧
    ((recordAll (NewMetrics C now0) rs).TotalRequests = (rs.length : Int) ∧
      (recordAll (NewMetrics C now0) rs).TotalLatency =
        wrap64 (rs.map fun r => r.Latency).sum ∧
      ∃ s, GetStats (recordAll (NewMetrics C now0) rs) now = some s ∧
        s.AvgLatency =
          if rs.length = 0 then 0
          else quotTowardZero (wrap64 (rs.map fun r => r.Latency).sum) (rs.length : Int)) := by
  have key : ∀ base : Metrics, base.TotalRequests = 0 → base.TotalLatency = 0 →
      (recordAll base rs).TotalRequests = (rs.length : Int) ∧
      (recordAll base rs).TotalLatency = wrap64 (rs.map fun r => r.Latency).sum ∧
      ∃ s, GetStats (recordAll base rs) now = some s ∧
        s.AvgLatency =
          if rs.length = 0 then 0
          else quotTowardZero (wrap64 (rs.map fun r => r.Latency).sum) (rs.length : Int) := by
    intro base r1 r2
    obtain ⟨s, hs, havg, -⟩ := GetStats_counters (recordAll base rs) now
    obtain ⟨h1, h2⟩ := recordAll_totals base rs (by rw [r2]; decide)
    rw [r1, zero_add] at h1
    rw [r2, zero_add] at h2
    refine ⟨h1, h2, s, hs, ?_⟩
    rw [havg, statsCounters_eq]
    simp only [h1, h2]
    by_cases hlen : rs.length = 0
    · simp [hlen]
    · have hpos : (0 : Int) < (rs.length : Int) := by omega
      rw [if_pos hpos, if_neg hlen]
      exact goDiv_eq_quotTowardZero _ _ hpos
  refine ⟨?_, key (Reset m0 now0) rfl rfl, key (NewMetrics C now0) rfl rfl⟩
  obtain ⟨s, hs, havg, -⟩ := GetStats_counters m now
  refine ⟨s, hs, ?_⟩
  rw [havg, statsCounters_eq]
  simp only
  by_cases hpos : m.TotalRequests > 0
  · rw [if_pos hpos, if_pos hpos]
    exact goDiv_eq_quotTowardZero _ _ hpos
  · rw [if_neg hpos, if_neg hpos]

/-- C13: for every tester whose maximum `M` is at least `1` and every integer `n`,
after `SetConcurrency(n)` the value of `GetConcurrency()` is `1` if `n < 1`, `M` if
`n > M`, and `n` otherwise; the maximum is unchanged. -/
theorem setConcurrency_clamps (lt : LoadTester) (n : Int) (hM : 1 ≤ lt.maxConcur) :
    (lt.SetConcurrency n).GetConcurrency =
      (if n < 1 then 1 else if n > lt.maxConcur then lt.maxConcur else n) ∧
    (lt.SetConcurrency n).maxConcur = lt.maxConcur := by
  refine ⟨?_, SetConcurrency_maxConcur lt n⟩
  unfold LoadTester.GetConcurrency
  rw [SetConcurrency_concurrency]
  split_ifs <;> omega

/-- Witness of C13: the tester of `TestLoadTester_SetConcurrency` and `n = 100`. -/
theorem setConcurrency_clamps_witness :
    1 ≤ (NewLoadTester none none [WithMaxConcurrency 50]).maxConcur ∧
    (((NewLoadTester none none [WithMaxConcurrency 50]).SetConcurrency 100).GetConcurrency =
      (if (100 : Int) < 1 then 1
       else if 100 > (NewLoadTester none none [WithMaxConcurrency 50]).maxConcur
       then (NewLoadTester none none [WithMaxConcurrency 50]).maxConcur else 100) ∧
    ((NewLoadTester none none [WithMaxConcurrency 50]).SetConcurrency 100).maxConcur =
      (NewLoadTester none none [WithMaxConcurrency 50]).maxConcur) :=
  ⟨by decide, setConcurrency_clamps (NewLoadTester none none [WithMaxConcurrency 50]) 100
    (by decide)⟩

/-- C14 fails on the code: `NewLoadTester` with the single option
`WithMaxConcurrency(5)` keeps the default concurrency `10` above the new maximum `5`,
and `WithConcurrency(50)` followed by `WithMaxConcurrency(20)` gives `50` above `20`;
the sibling option `WithConcurrency` and `SetConcurrency` do keep the level within
`[1, maxConcur]` whenever `maxConcur ≥ 1`. -/
theorem newLoadTester_exceeds_max :
    (NewLoadTester none none [WithMaxConcurrency 5]).concurrency = 10 ∧
    (NewLoadTester none none [WithMaxConcurrency 5]).maxConcur = 5 ∧
    (NewLoadTester none none [WithConcurrency 50, WithMaxConcurrency 20]).concurrency = 50 ∧
    (NewLoadTester none none [WithConcurrency 50, WithMaxConcurrency 20]).maxConcur = 20 ∧
    (∀ (lt : LoadTester) (n : Int), 1 ≤ lt.maxConcur →
      1 ≤ (lt.SetConcurrency n).concurrency ∧
      (lt.SetConcurrency n).concurrency ≤ (lt.SetConcurrency n).maxConcur) := by
  refine ⟨by decide, by decide, by decide, by decide, ?_⟩
  intro lt n hM
  rw [SetConcurrency_concurrency, SetConcurrency_maxConcur]
  split_ifs <;> omega

/-- C15: for every generator and endpoint whose URL is already in the registry,
`AddTester` leaves the generator as it was (the registry with its keys and the tester
stored under that URL included); hence a second `AddTester` for the same URL changes
nothing, and two of them on an empty generator leave exactly one entry. -/
theorem addTester_idempotent (lg : LoadGenerator) (endpoint : Endpoint)
    (metrics metrics2 : Option Metrics) (t : LoadTester)
    (h : lookupTester lg.testers endpoint.URL = some t) :
    lg.AddTester endpoint metrics = lg ∧
    lookupTester (lg.AddTester endpoint metrics).testers endpoint.URL = some t ∧
    (∀ (g : LoadGenerator) (e : Endpoint),
      (g.AddTester e metrics).AddTester e metrics2 = g.AddTester e metrics) ∧
    (∀ e : Endpoint,
      ((NewLoadGenerator.AddTester e metrics).AddTester e metrics2).testers.length = 1) := by
  have hsame : lg.AddTester endpoint metrics = lg := by
    unfold LoadGenerator.AddTester
    rw [h]
  have hidem : ∀ (g : LoadGenerator) (e : Endpoint),
      (g.AddTester e metrics).AddTester e metrics2 = g.AddTester e metrics := by
    intro g e
    cases hg : lookupTester g.testers e.URL with
    | some t0 =>
      have h1 : g.AddTester e metrics = g := by
        unfold LoadGenerator.AddTester
        rw [hg]
      rw [h1]
      unfold LoadGenerator.AddTester
      rw [hg]
    | none =>
      have h1 : g.AddTester e metrics =
          { g with testers := g.testers ++ [(e.URL, NewLoadTester (some e) metrics [])] } := by
        unfold LoadGenerator.AddTester
        rw [hg]
      rw [h1]
      unfold LoadGenerator.AddTester
      simp only
      rw [lookupTester_append_new g.testers e.URL _ hg]
  refine ⟨hsame, ?_, hidem, ?_⟩
  · rw [hsame]
    exact h
  · intro e
    rw [hidem]
    rfl

/-- Witness of C15: the sample generator, which holds a tester for the URL `a`. -/
theorem addTester_idempotent_witness :
    lookupTester sampleGenerator.testers (sampleEndpoint "a").URL =
      some (NewLoadTester (some (sampleEndpoint "a")) none []) ∧
    sampleGenerator.AddTester (sampleEndpoint "a") (some (NewMetrics 5 0)) = sampleGenerator :=
  ⟨by decide,
    (addTester_idempotent sampleGenerator (sampleEndpoint "a") (some (NewMetrics 5 0)) none
      (NewLoadTester (some (sampleEndpoint "a")) none []) (by decide)).1⟩

/-- C16: `LoadTester.Start` returns an error exactly when the tester is running, and
then the tester is as before the call; `LoadGenerator.Start` returns an error exactly
when the generator is running, and then the generator is as before the call and
nothing panicked. -/
theorem start_error_iff (lt : LoadTester) (lg : LoadGenerator) (rps : Int) :
    (lt.Start.err ≠ none ↔ lt.running = true) ∧
    (lt.Start.err ≠ none → lt.Start.state = lt) ∧
    ((lg.Start rps).err ≠ none ↔ lg.running = true) ∧
    ((lg.Start rps).err ≠ none →
      (lg.Start rps).state = lg ∧ (lg.Start rps).panicked = false) := by
  have hstartAll : ∀ (urls : List String) (g : LoadGenerator), (g.startAll urls).err = none := by
    intro urls
    induction urls with
    | nil =>
      intro g
      rfl
    | cons url rest ih =>
      intro g
      unfold LoadGenerator.startAll
      simp only
      split_ifs
      · unfold LoadGenerator.startTester
        cases lookupTester g.testers url with
        | none => rfl
        | some t =>
          simp only
          split_ifs
          · unfold LoadGenerator.runGenerator
            cases (tickInterval g.rps).bind (NewTicker url) <;> rfl
          · rfl
      · exact ih _
  have hlt : lt.Start.err ≠ none ↔ lt.running = true := by
    unfold LoadTester.Start
    by_cases h : lt.running = true
    · simp [h]
    · simp [h, Outcome.ok]
  have hlg : (lg.Start rps).err ≠ none ↔ lg.running = true := by
    unfold LoadGenerator.Start
    by_cases h : lg.running = true
    · simp [h]
    · simp only [h, if_false, Bool.false_eq_true, iff_false, not_not]
      exact hstartAll _ _
  refine ⟨hlt, ?_, hlg, ?_⟩
  · intro he
    have hr := hlt.mp he
    unfold LoadTester.Start
    rw [if_pos hr]
  · intro he
    have hr := hlg.mp he
    unfold LoadGenerator.Start
    rw [if_pos hr]
    exact ⟨rfl, rfl⟩

/-- C17: for every tester whose request channel has capacity 1000 (as `NewLoadTester`
makes it): `SendRequest` on a stopped tester changes nothing; on a running tester it
adds `1` to the requests-sent counter, the queue length becomes
`min(queueLength + 1, 1000)` and nothing else changes; the queue holds at most 1000
units afterwards. -/
theorem sendRequest_spec (lt : LoadTester) (hcap : lt.reqChan.cap = 1000)
    (hlen : lt.reqChan.len ≤ 1000) :
    (lt.running = false → lt.SendRequest = lt) ∧
    (lt.running = true →
      lt.SendRequest =
        { lt with requestsSent := lt.requestsSent + 1
                  reqChan := { len := min (lt.reqChan.len + 1) 1000, cap := 1000 } }) ∧
    lt.SendRequest.reqChan.len ≤ 1000 := by
  have hsend : lt.reqChan.trySend = { len := min (lt.reqChan.len + 1) 1000, cap := 1000 } := by
    unfold Chan.trySend
    rw [hcap]
    by_cases hfull : lt.reqChan.len < 1000
    · rw [if_pos hfull]
      have : min (lt.reqChan.len + 1) 1000 = lt.reqChan.len + 1 := by omega
      rw [this, ← hcap]
    · rw [if_neg hfull]
      have h1 : lt.reqChan.len = 1000 := by omega
      have : min (lt.reqChan.len + 1) 1000 = lt.reqChan.len := by omega
      rw [this]
      cases hc : lt.reqChan with
      | mk l c =>
        rw [hc] at hcap
        simp only at hcap
        rw [hcap]
  refine ⟨?_, ?_, ?_⟩
  · intro h
    simp [LoadTester.SendRequest, h]
  · intro h
    simp [LoadTester.SendRequest, h, hsend]
  · unfold LoadTester.SendRequest
    by_cases h : lt.running = true
    · simp only [h, Bool.not_true, Bool.false_eq_true, if_false, hsend]
      omega
    · simp only [h, Bool.not_eq_true] at *
      simp [h, hlen]

/-- Witness of C17: a fresh tester after `Start`. -/
theorem sendRequest_spec_witness :
    (NewLoadTester none none []).Start.state.reqChan.cap = 1000 ∧
    (NewLoadTester none none []).Start.state.reqChan.len ≤ 1000 ∧
    (NewLoadTester none none []).Start.state.running = true ∧
    (NewLoadTester none none []).Start.state.SendRequest.requestsSent = 1 ∧
    (NewLoadTester none none []).Start.state.SendRequest.reqChan.len = 1 :=
  ⟨by decide, by decide, by decide,
    by
      rw [(sendRequest_spec (NewLoadTester none none []).Start.state (by decide)
        (by decide)).2.1 (by decide)]
      decide,
    by
      rw [(sendRequest_spec (NewLoadTester none none []).Start.state (by decide)
        (by decide)).2.1 (by decide)]
      decide⟩

/-- C18: for every generator and every `r`, after `SetRPS(r)` the value of `GetRPS()`
is `max(r, 1)`; after a `Start(r)` that returns no error it is `max(r, 1)`; and after
every sequence of calls (`Start`, `SetRPS`, `IncreaseRPS`, `DecreaseRPS`, and also
`Stop`, `AddTester`, `RemoveTester`) on a `NewLoadGenerator()` it is at least `1`. -/
theorem rps_at_least_one (lg : LoadGenerator) (r : Int) (calls : List GenCall) :
    (lg.SetRPS r).state.GetRPS = max r 1 ∧
    ((lg.Start r).err = none → (lg.Start r).state.GetRPS = max r 1) ∧
    1 ≤ (runCalls NewLoadGenerator calls).state.GetRPS := by
  refine ⟨SetRPS_rps lg r, ?_, runCalls_rps NewLoadGenerator calls (by decide)⟩
  intro he
  unfold LoadGenerator.GetRPS
  rw [Start_rps]
  by_cases h : lg.running = true
  · exfalso
    have herr : (lg.Start r).err = some "load generator already running" := by
      unfold LoadGenerator.Start
      rw [if_pos h]
    rw [he] at herr
    exact Option.noConfusion herr
  · rw [if_neg h]

/-- Witness of C18: `Start(0)` on the sample generator returns no error and leaves
the rate `1`. -/
theorem rps_at_least_one_witness :
    (sampleGenerator.Start 0).err = none ∧ (sampleGenerator.Start 0).state.GetRPS = max 0 1 :=
  ⟨by decide, (rps_at_least_one sampleGenerator 0 []).2.1 (by decide)⟩

/-- C19 fails on the code: the sample generator has two testers; `Start(10)` starts
both and makes two tickers of period 100ms, and the field `ticker` keeps only the one
made last; `SetRPS(20)` then returns without panic and resets that one ticker to 50ms,
while the ticker of the other tester keeps its period of 100ms. -/
theorem setRPS_resets_one_ticker :
    (sampleGenerator.Start 10).err = none ∧
    (sampleGenerator.Start 10).panicked = false ∧
    (sampleGenerator.Start 10).state.running = true ∧
    (sampleGenerator.Start 10).state.generators = 2 ∧
    (sampleGenerator.Start 10).state.tickers =
      [{ tester := "b", period := 100 * Millisecond, active := true },
       { tester := "a", period := 100 * Millisecond, active := true }] ∧
    tickInterval (max 20 1) = some (50 * Millisecond) ∧
    ((sampleGenerator.Start 10).state.SetRPS 20).panicked = false ∧
    ((sampleGenerator.Start 10).state.SetRPS 20).state.tickers =
      [{ tester := "b", period := 50 * Millisecond, active := true },
       { tester := "a", period := 100 * Millisecond, active := true }] := by
  decide

/-- C20, as stated, fails: a generator at the largest rate an `int` holds (`SetRPS`
accepts it on a fresh generator, without panic) has a rate of at least `1`, yet
`IncreaseRPS` computes `r + 5` in 64 bit arithmetic, which is negative, and `SetRPS`
clamps it: the rate becomes `1`, not `r + 5`, and `DecreaseRPS` after it leaves
`1`, not `r`. -/
theorem rps_increase_wraps :
    (NewLoadGenerator.SetRPS MaxInt64).panicked = false ∧
    (NewLoadGenerator.SetRPS MaxInt64).state.GetRPS = MaxInt64 ∧
    1 ≤ (NewLoadGenerator.SetRPS MaxInt64).state.GetRPS ∧
    (NewLoadGenerator.SetRPS MaxInt64).state.IncreaseRPS.panicked = false ∧
    (NewLoadGenerator.SetRPS MaxInt64).state.IncreaseRPS.state.GetRPS = 1 ∧
    (NewLoadGenerator.SetRPS MaxInt64).state.IncreaseRPS.state.DecreaseRPS.state.GetRPS
      = 1 := by
  decide

/-- C20, amended: for every generator whose rate `r` satisfies `1 ≤ r` and
`r + 5 ≤ MaxInt64`, `IncreaseRPS` sets the rate to `r + 5`, `DecreaseRPS` sets it to
`max(r - 5, 1)`, and `IncreaseRPS` followed by `DecreaseRPS` sets it back to `r`; when
moreover `r + 5 ≤ 10^9`, none of these calls panics. -/
theorem rps_increase_decrease (lg : LoadGenerator) (h : 1 ≤ lg.rps)
    (hmax : lg.rps + 5 ≤ MaxInt64) :
    lg.IncreaseRPS.state.GetRPS = lg.rps + 5 ∧
    lg.DecreaseRPS.state.GetRPS = max (lg.rps - 5) 1 ∧
    lg.IncreaseRPS.state.DecreaseRPS.state.GetRPS = lg.rps ∧
    (lg.rps + 5 ≤ 1000000000 →
      lg.IncreaseRPS.panicked = false ∧ lg.DecreaseRPS.panicked = false ∧
      lg.IncreaseRPS.state.DecreaseRPS.panicked = false) := by
  unfold MaxInt64 at hmax
  unfold LoadGenerator.GetRPS
  have hinc : lg.IncreaseRPS.state.rps = lg.rps + 5 := by
    rw [IncreaseRPS_rps, wrap64_of_range _ (by omega) (by omega)]
    omega
  have hdec : lg.DecreaseRPS.state.rps = max (lg.rps - 5) 1 := by
    rw [DecreaseRPS_rps, wrap64_of_range _ (by omega) (by omega)]
  refine ⟨hinc, hdec, ?_, ?_⟩
  · rw [DecreaseRPS_rps, hinc, wrap64_of_range _ (by omega) (by omega)]
    omega
  · intro hsmall
    refine ⟨?_, ?_, ?_⟩
    · unfold LoadGenerator.IncreaseRPS
      exact SetRPS_no_panic lg _ (by rw [wrap64_of_range _ (by omega) (by omega)]; omega)
    · exact DecreaseRPS_no_panic lg
        (by rw [wrap64_of_range _ (by omega) (by omega)]; omega)
    · refine DecreaseRPS_no_panic _ ?_
      rw [hinc, wrap64_of_range _ (by omega) (by omega)]
      omega

/-- Witness of C20 amended: the generator of `TestLoadGenerator_IncreaseDecreaseRPS`,
at rate 20. -/
theorem rps_increase_decrease_witness :
    1 ≤ (NewLoadGenerator.SetRPS 20).state.rps ∧
    (NewLoadGenerator.SetRPS 20).state.rps + 5 ≤ MaxInt64 ∧
    (NewLoadGenerator.SetRPS 20).state.IncreaseRPS.state.GetRPS =
      (NewLoadGenerator.SetRPS 20).state.rps + 5 ∧
    (NewLoadGenerator.SetRPS 20).state.DecreaseRPS.state.GetRPS =
      max ((NewLoadGenerator.SetRPS 20).state.rps - 5) 1 ∧
    (NewLoadGenerator.SetRPS 20).state.IncreaseRPS.state.DecreaseRPS.state.GetRPS =
      (NewLoadGenerator.SetRPS 20).state.rps :=
  ⟨by decide, by decide,
    (rps_increase_decrease (NewLoadGenerator.SetRPS 20).state (by decide) (by decide)).1,
    (rps_increase_decrease (NewLoadGenerator.SetRPS 20).state (by decide) (by decide)).2.1,
    (rps_increase_decrease (NewLoadGenerator.SetRPS 20).state (by decide) (by decide)).2.2.1⟩

/-! ## Lemmas for the third group of claims -/

theorem makeAndCopy_of_length (n : Nat) (src : List Int) (h : src.length = n) :
    makeAndCopy n src = src := by
  unfold makeAndCopy
  rw [← h]
  simp

theorem hasURL_iff (l : List EndpointConfig) (url : String) :
    hasURL l url = true ↔ url ∈ l.map fun ep => ep.URL := by
  induction l with
  | nil => simp [hasURL]
  | cons ep rest ih =>
    by_cases h : ep.URL = url
    · simp [hasURL, h]
    · have h2 : ¬ url = ep.URL := fun e => h e.symm
      simp [hasURL, h, h2, ih]

theorem removeFirstURL_of_not_mem (l : List EndpointConfig) (url : String)
    (h : url ∉ l.map fun ep => ep.URL) : removeFirstURL l url = l := by
  induction l with
  | nil => rfl
  | cons ep rest ih =>
    simp only [List.map_cons, List.mem_cons, not_or] at h
    have h1 : ¬ ep.URL = url := fun e => h.1 e.symm
    simp only [removeFirstURL, if_neg h1]
    rw [ih h.2]

theorem filter_ne_of_not_mem (l : List EndpointConfig) (url : String)
    (h : url ∉ l.map fun ep => ep.URL) :
    l.filter (fun ep => decide (ep.URL ≠ url)) = l := by
  induction l with
  | nil => rfl
  | cons ep rest ih =>
    simp only [List.map_cons, List.mem_cons, not_or] at h
    have h1 : ¬ ep.URL = url := fun e => h.1 e.symm
    rw [List.filter_cons_of_pos (by simpa using h1), ih h.2]

theorem removeFirstURL_eq_filter (l : List EndpointConfig) (url : String)
    (h : (l.map fun ep => ep.URL).Nodup) :
    removeFirstURL l url = l.filter (fun ep => decide (ep.URL ≠ url)) := by
  induction l with
  | nil => rfl
  | cons ep rest ih =>
    simp only [List.map_cons, List.nodup_cons] at h
    by_cases h1 : ep.URL = url
    · simp only [removeFirstURL, if_pos h1]
      rw [List.filter_cons_of_neg (by simpa using h1)]
      rw [filter_ne_of_not_mem rest url (by rw [← h1]; exact h.1)]
    · simp only [removeFirstURL, if_neg h1]
      rw [List.filter_cons_of_pos (by simpa using h1), ih h.2]

theorem sum_counts_bump (h : List (Int × Int)) (c : Int) :
    ((bump h c).map Prod.snd).sum = (h.map Prod.snd).sum + 1 := by
  induction h with
  | nil => simp [bump]
  | cons e rest ih =>
    obtain ⟨k, v⟩ := e
    by_cases hk : k = c
    · simp [bump, hk]
      ring
    · simp [bump, hk, ih]
      ring

theorem run_counts (m : Metrics) (calls : List Call)
    (h : m.TotalErrors + (m.StatusCodeCounts.map Prod.snd).sum = m.TotalRequests) :
    (run m calls).TotalErrors + ((run m calls).StatusCodeCounts.map Prod.snd).sum =
      (run m calls).TotalRequests := by
  induction calls generalizing m with
  | nil => exact h
  | cons c rest ih =>
    have hstep : run m (c :: rest) = run (applyCall m c) rest := rfl
    rw [hstep]
    apply ih
    cases c with
    | record r =>
      simp only [applyCall, Record_TotalErrors, Record_TotalRequests, Record_StatusCodeCounts]
      split_ifs
      · omega
      · rw [sum_counts_bump]
        omega
    | reset now =>
      simp [applyCall, Reset]

theorem run_aligned (m : Metrics) (calls : List Call)
    (h : m.maxLatencies = m.maxRecentResults ∧
      m.Latencies = m.RecentResults.map fun r => r.Latency) :
    (run m calls).maxLatencies = (run m calls).maxRecentResults ∧
    (run m calls).Latencies = (run m calls).RecentResults.map fun r => r.Latency := by
  induction calls generalizing m with
  | nil => exact h
  | cons c rest ih =>
    have hstep : run m (c :: rest) = run (applyCall m c) rest := rfl
    rw [hstep]
    apply ih
    obtain ⟨h1, h2⟩ := h
    cases c with
    | record r =>
      simp only [applyCall]
      refine ⟨by rw [Record_maxLatencies, Record_maxRecentResults, h1], ?_⟩
      rw [Record_Latencies, Record_RecentResults, h2, h1]
      simp only [List.length_append, List.length_map, List.length_singleton]
      split_ifs <;> simp
    | reset now =>
      exact ⟨h1, rfl⟩

theorem GetStats_agree (m : Metrics) (now1 now2 : Int) :
    ∃ s1 s2, GetStats m now1 = some s1 ∧ GetStats m now2 = some s2 ∧
      s1.P50 = s2.P50 ∧ s1.P95 = s2.P95 ∧ s1.P99 = s2.P99 ∧
      s1.AvgLatency = s2.AvgLatency ∧ s1.MinLatency = s2.MinLatency ∧
      s1.MaxLatency = s2.MaxLatency ∧ s1.ErrorRate = s2.ErrorRate ∧
      s1.AvgSize = s2.AvgSize ∧ s1.TotalRequests = s2.TotalRequests ∧
      s1.TotalErrors = s2.TotalErrors ∧ s1.StatusCode2xx = s2.StatusCode2xx ∧
      s1.StatusCode4xx = s2.StatusCode4xx ∧ s1.StatusCode5xx = s2.StatusCode5xx := by
  by_cases hnil : m.Latencies = []
  · refine ⟨_, _, GetStats_of_nil m now1 hnil, GetStats_of_nil m now2 hnil, ?_⟩
    simp [statsCounters_eq]
  · obtain ⟨mn, mx, p50, p95, p99, a1, a2, a3, a4, a5, hs1⟩ := GetStats_of_ne m now1 hnil
    obtain ⟨mn2, mx2, q50, q95, q99, b1, b2, b3, b4, b5, hs2⟩ := GetStats_of_ne m now2 hnil
    have e1 : mn = mn2 := Option.some.inj (a1.symm.trans b1)
    have e2 : mx = mx2 := Option.some.inj (a2.symm.trans b2)
    have e3 : p50 = q50 := Option.some.inj (a3.symm.trans b3)
    have e4 : p95 = q95 := Option.some.inj (a4.symm.trans b4)
    have e5 : p99 = q99 := Option.some.inj (a5.symm.trans b5)
    subst e1 e2 e3 e4 e5
    refine ⟨_, _, hs1, hs2, ?_⟩
    simp [statsCounters_eq]

theorem Heap_read_length (h : Heap) (s : Slice)
    (hv : s.off + s.len ≤ (h.arrays.getD s.arr []).length) : (h.read s).length = s.len := by
  unfold Heap.read
  rw [List.length_take, List.length_drop]
  omega

theorem Heap_write_fresh (A : List (List Int)) (a vals : List Int) (n : Nat)
    (ha : a.length = n) (hvals : vals.length = n) :
    ({ arrays := A ++ [a] } : Heap).write { arr := A.length, off := 0, len := n } vals =
      { arrays := A ++ [vals] } := by
  unfold Heap.write
  simp only [List.getD_append_right _ _ _ _ (le_refl A.length), Nat.sub_self, List.getD_cons_zero,
    ha, hvals, Nat.sub_zero, Nat.min_self, List.take_zero, List.nil_append, Nat.zero_add]
  rw [List.set_append_right _ _ (le_refl A.length), Nat.sub_self, List.set_cons_zero]
  have h1 : List.take n vals = vals := by rw [← hvals]; exact List.take_length _
  have h2 : List.drop n a = [] := by rw [← ha]; exact List.drop_length _
  rw [h1, h2, List.append_nil]

theorem Heap_read_fresh (A : List (List Int)) (v : List Int) (n : Nat) (hv : v.length = n) :
    ({ arrays := A ++ [v] } : Heap).read { arr := A.length, off := 0, len := n } = v := by
  unfold Heap.read
  simp only [List.getD_append_right _ _ _ _ (le_refl A.length), Nat.sub_self, List.getD_cons_zero,
    List.drop_zero]
  rw [← hv]
  exact List.take_length _

theorem GetStatsOnHeap_heap (h : Heap) (lat : Slice) (m : Metrics) (now : Int)
    (hpos : 0 < lat.len) (hv1 : lat.arr < h.arrays.length)
    (hv2 : lat.off + lat.len ≤ (h.arrays.getD lat.arr []).length) :
    GetStatsOnHeap h lat m now =
      ({ arrays := h.arrays ++ [sortAscending (h.read lat)] },
        GetStats { m with Latencies := h.read lat } now) := by
  have hlen := Heap_read_length h lat hv2
  have hread1 : ({ arrays := h.arrays ++ [List.replicate lat.len 0] } : Heap).read lat =
      h.read lat := by
    unfold Heap.read
    simp only [List.getD_append _ _ _ _ hv1]
  have hcopy : (h.make lat.len).1.copy (h.make lat.len).2 lat =
      { arrays := h.arrays ++ [h.read lat] } := by
    unfold Heap.copy Heap.make
    simp only [hread1]
    exact Heap_write_fresh _ _ _ _ (List.length_replicate _ _) hlen
  have hsort : ({ arrays := h.arrays ++ [h.read lat] } : Heap).sortSlice (h.make lat.len).2 =
      { arrays := h.arrays ++ [sortAscending (h.read lat)] } := by
    unfold Heap.sortSlice Heap.make
    simp only [Heap_read_fresh _ _ _ hlen]
    exact Heap_write_fresh _ _ _ _ hlen (by rw [length_sortAscending, hlen])
  have hfinal : ({ arrays := h.arrays ++ [sortAscending (h.read lat)] } : Heap).read
      (h.make lat.len).2 = sortAscending (h.read lat) := by
    unfold Heap.make
    exact Heap_read_fresh _ _ _ (by rw [length_sortAscending, hlen])
  have hslen : (h.make lat.len).2.len = (sortAscending (h.read lat)).length := by
    rw [length_sortAscending, hlen]
    rfl
  unfold GetStatsOnHeap
  simp only [hpos, if_true, hcopy, hsort, hfinal, hslen]
  unfold GetStats
  simp only [hlen, hpos, if_true]
  rfl

theorem GetStatsOnHeap_stats (h : Heap) (lat : Slice) (m : Metrics) (now : Int)
    (hv1 : lat.arr < h.arrays.length)
    (hv2 : lat.off + lat.len ≤ (h.arrays.getD lat.arr []).length) :
    (GetStatsOnHeap h lat m now).2 = GetStats { m with Latencies := h.read lat } now := by
  by_cases hpos : 0 < lat.len
  · rw [GetStatsOnHeap_heap h lat m now hpos hv1 hv2]
  · have h0 : lat.len = 0 := by omega
    have hnil : h.read lat = [] := by
      unfold Heap.read
      rw [h0, List.take_zero]
    unfold GetStatsOnHeap
    rw [if_neg hpos, hnil, GetStats_of_nil _ _ rfl]
    rfl

theorem GetStatsOnHeap_frame (h : Heap) (lat : Slice) (m : Metrics) (now : Int)
    (hv1 : lat.arr < h.arrays.length) :
    (∀ a : Nat, a < h.arrays.length →
      (GetStatsOnHeap h lat m now).1.arrays[a]? = h.arrays[a]?) ∧
    h.arrays.length ≤ (GetStatsOnHeap h lat m now).1.arrays.length ∧
    (GetStatsOnHeap h lat m now).1.arrays.getD lat.arr [] = h.arrays.getD lat.arr [] := by
  by_cases hpos : 0 < lat.len
  · have hheap : (GetStatsOnHeap h lat m now).1.arrays =
        (h.arrays ++ [List.replicate lat.len 0]).set h.arrays.length
          ((GetStatsOnHeap h lat m now).1.arrays.getD h.arrays.length []) := by
      unfold GetStatsOnHeap
      simp only [hpos, if_true, Heap.sortSlice, Heap.write, Heap.copy, Heap.make,
        List.set_set, List.length_set, List.length_append, List.length_singleton]
      simp
    have hlen : (GetStatsOnHeap h lat m now).1.arrays.length = h.arrays.length + 1 := by
      rw [hheap]
      simp
    have hget : ∀ a : Nat, a < h.arrays.length →
        (GetStatsOnHeap h lat m now).1.arrays[a]? = h.arrays[a]? := by
      intro a ha
      rw [hheap, List.getElem?_set_ne (by omega), List.getElem?_append_left ha]
    refine ⟨hget, by omega, ?_⟩
    rw [List.getD_eq_getElem?_getD, List.getD_eq_getElem?_getD, hget _ hv1]
  · unfold GetStatsOnHeap
    rw [if_neg hpos]
    exact ⟨fun _ _ => rfl, le_refl _, rfl⟩

/-! ## The claims on the collector, endpoints, recent latencies and configuration -/

/-- C21: `makeRequest` turns every received response, whatever its status code, into
a result with `IsError = false` and that status code.  For a tester with metrics and
an endpoint, one round of the collector records the result and updates the endpoint:
when `IsError = false` it leaves `TotalErrors`, adds `1` to the bucket of the status
code and sets the status to `Slow` if the latency is above 500ms and to `Healthy`
otherwise, never to `Down`; when `IsError = true` it adds `1` to `TotalErrors` and sets
the status to `Down`. -/
theorem collector_step (lt : LoadTester) (m : Metrics) (e : Endpoint) (result : RequestResult)
    (now : Int) (hm : lt.metrics = some m) (he : lt.endpoint = some e) :
    (∀ (t statusCode size latency : Int),
      (lt.makeRequest t none (DoResult.response statusCode size) latency).IsError = false ∧
      (lt.makeRequest t none (DoResult.response statusCode size) latency).StatusCode =
        statusCode) ∧
    ∃ m2 e2, (lt.collect result now).panicked = false ∧
      (lt.collect result now).state.metrics = some m2 ∧
      (lt.collect result now).state.endpoint = some e2 ∧
      m2 = Record m result ∧
      (result.IsError = false →
        m2.TotalErrors = m.TotalErrors ∧
        (∀ code : Int, countOf m2.StatusCodeCounts code =
          countOf m.StatusCodeCounts code + if code = result.StatusCode then 1 else 0) ∧
        e2.Status = (if result.Latency > 500 * Millisecond then EndpointStatus.StatusSlow
          else EndpointStatus.StatusHealthy) ∧
        e2.Status ≠ EndpointStatus.StatusDown) ∧
      (result.IsError = true →
        m2.TotalErrors = m.TotalErrors + 1 ∧ e2.Status = EndpointStatus.StatusDown) := by
  constructor
  · intro t statusCode size latency
    unfold LoadTester.makeRequest
    rw [he]
    exact ⟨rfl, rfl⟩
  · refine ⟨Record m result,
      e.Update result.Latency
        (if result.IsError then some ("request error: " ++ result.ErrorMessage) else none) now,
      ?_, ?_, ?_, rfl, ?_, ?_⟩
    · unfold LoadTester.collect
      simp [hm, he, Outcome.ok]
    · unfold LoadTester.collect
      simp [hm, he, Outcome.ok]
    · unfold LoadTester.collect
      simp [hm, he, Outcome.ok]
    · intro herr
      refine ⟨?_, ?_, ?_, ?_⟩
      · rw [Record_TotalErrors]
        simp [herr]
      · intro code
        rw [Record_StatusCodeCounts]
        simp only [herr, Bool.false_eq_true, if_false]
        exact countOf_bump _ _ _
      · simp [Endpoint.Update, DetermineStatus, herr]
      · simp only [Endpoint.Update, DetermineStatus, herr, Bool.false_eq_true, if_false]
        split_ifs <;> simp_all
    · intro herr
      refine ⟨?_, ?_⟩
      · rw [Record_TotalErrors]
        simp [herr]
      · simp [Endpoint.Update, DetermineStatus, herr]

/-- Witness of C21: the sample tester and a response of status 503 after 20ms. -/
theorem collector_step_witness :
    sampleTester.metrics = some (NewMetrics 5 0) ∧
    sampleTester.endpoint = some (sampleEndpoint "a") ∧
    ∃ m2 e2,
      (sampleTester.collect
        (sampleTester.makeRequest 0 none (DoResult.response 503 0) (20 * Millisecond))
        1).state.metrics = some m2 ∧
      (sampleTester.collect
        (sampleTester.makeRequest 0 none (DoResult.response 503 0) (20 * Millisecond))
        1).state.endpoint = some e2 ∧
      m2.TotalErrors = 0 ∧ countOf m2.StatusCodeCounts 503 = 1 ∧
      e2.Status = EndpointStatus.StatusHealthy := by
  refine ⟨by decide, by decide, ?_⟩
  obtain ⟨-, m2, e2, -, h1, h2, h3, h4, -⟩ :=
    collector_step sampleTester (NewMetrics 5 0) (sampleEndpoint "a")
      (sampleTester.makeRequest 0 none (DoResult.response 503 0) (20 * Millisecond)) 1
      (by decide) (by decide)
  obtain ⟨g1, g2, g3, -⟩ := h4 (by decide)
  refine ⟨m2, e2, h1, h2, ?_, ?_, ?_⟩
  · rw [g1]
    decide
  · rw [g2]
    decide
  · rw [g3]
    decide

/-- C22: let `url.Parse`, applied to the input with `http://` put in front when it
has neither the prefix `http://` nor `https://`, succeed and split it into a scheme,
a host, an optional non-empty port and a path.  Then `NewEndpoint` succeeds; the URL
of the endpoint is the rendering of that scheme, of `host:port` with the given port
or else `443` for `https` and `80` otherwise, and of the path; its `Name` is
`host:port` followed by the path, and just `host:port` for an empty path or the path
`/`; `IsHTTPS` says whether the scheme is `https`; `Status` is `Unknown` and
`IsActive` is true.  An input with neither prefix is parsed with the prefix
`http://`. -/
theorem newEndpoint_spec (parse : String → Except String ParsedURL)
    (portOf : String → String) (render : ParsedURL → String)
    (rawURL scheme host path : String) (port : Option String)
    (hparse : parse (if !HasPrefix rawURL "http://" && !HasPrefix rawURL "https://"
        then "http://" ++ rawURL else rawURL) =
      Except.ok { Scheme := scheme, Host := hostPort host port, Path := path })
    (hport : portOf (hostPort host port) = port.getD "")
    (hgiven : port ≠ some "") :
    (HasPrefix rawURL "http://" = false → HasPrefix rawURL "https://" = false →
      parse ("http://" ++ rawURL) =
        Except.ok { Scheme := scheme, Host := hostPort host port, Path := path } ∧
      HasPrefix ("http://" ++ rawURL) "http://" = true) ∧
    ∃ e, NewEndpoint parse portOf render rawURL = Except.ok e ∧
      e.URL = render { Scheme := scheme
                       Host := host ++ ":" ++ effectivePort scheme port
                       Path := path } ∧
      e.Name = host ++ ":" ++ effectivePort scheme port ++
        (if path = "" ∨ path = "/" then "" else path) ∧
      e.IsHTTPS = decide (scheme = "https") ∧
      e.Status = EndpointStatus.StatusUnknown ∧ e.IsActive = true := by
  constructor
  · intro h1 h2
    rw [h1, h2] at hparse
    refine ⟨hparse, ?_⟩
    unfold HasPrefix
    rw [String.toList, String.toList, String.data_append]
    simp
  · unfold NewEndpoint
    simp only [hparse]
    cases port with
    | none =>
      simp only [hostPort, Option.getD] at hport ⊢
      simp only [hport, effectivePort, if_true]
      by_cases hs : scheme = "https"
      · subst hs
        refine ⟨_, rfl, ?_, ?_, rfl, rfl, rfl⟩
        · simp [String.append_assoc]
        · simp only [if_true]
          by_cases hp : path = "" ∨ path = "/"
          · have hp2 : ¬ (path ≠ "" ∧ path ≠ "/") := by tauto
            simp [hp, hp2, String.append_assoc]
          · have hp2 : path ≠ "" ∧ path ≠ "/" := by tauto
            simp [hp, hp2, String.append_assoc]
      · refine ⟨_, rfl, ?_, ?_, ?_, rfl, rfl⟩
        · simp [hs, String.append_assoc]
        · simp only [hs, if_false]
          by_cases hp : path = "" ∨ path = "/"
          · have hp2 : ¬ (path ≠ "" ∧ path ≠ "/") := by tauto
            simp [hp, hp2, String.append_assoc]
          · have hp2 : path ≠ "" ∧ path ≠ "/" := by tauto
            simp [hp, hp2, String.append_assoc]
        · simp [hs]
    | some p =>
      have hp0 : p ≠ "" := fun e => hgiven (by rw [e])
      simp only [hostPort, Option.getD] at hport ⊢
      simp only [hport, hp0, if_false, effectivePort]
      refine ⟨_, rfl, ?_, ?_, rfl, rfl, rfl⟩
      · simp [String.append_assoc]
      · by_cases hp : path = "" ∨ path = "/"
        · have hp2 : ¬ (path ≠ "" ∧ path ≠ "/") := by tauto
          simp [hp, hp2, String.append_assoc]
        · have hp2 : path ≠ "" ∧ path ≠ "/" := by tauto
          simp [hp, hp2, String.append_assoc]

/-- Witness of C22: the input `http://example.com` of `TestNewEndpoint`, with the
tables that stand for the library on the inputs of that test; the endpoint has the URL
`http://example.com:80`.  With the same tables `localhost:8080` gives the URL
`http://localhost:8080` and `http://localhost:3000/` gives the name
`localhost:3000`. -/
theorem newEndpoint_spec_witness :
    (∃ e, NewEndpoint sampleParse samplePort sampleRender "http://example.com" = Except.ok e ∧
      e.URL = "http://example.com:80" ∧ e.Name = "example.com:80" ∧ e.IsHTTPS = false) ∧
    (NewEndpoint sampleParse samplePort sampleRender "localhost:8080").toOption.map
      (fun e => e.URL) = some "http://localhost:8080" ∧
    (NewEndpoint sampleParse samplePort sampleRender "http://localhost:3000/").toOption.map
      (fun e => e.Name) = some "localhost:3000" := by
  refine ⟨?_, by decide, by decide⟩
  obtain ⟨-, e, h1, h2, h3, h4, -⟩ :=
    newEndpoint_spec sampleParse samplePort sampleRender "http://example.com" "http"
      "example.com" "" none (by rfl) (by decide) (by decide)
  refine ⟨e, h1, ?_, ?_, ?_⟩
  · rw [h2]
    decide
  · rw [h3]
    decide
  · rw [h4]
    decide

/-- C23: for every window with latency sequence `L` and every `count ≥ 0`,
`GetRecentLatencies(count)` returns the last `min(count, len(L))` elements of `L` in
recorded order, which is the empty result when that number is `0`. -/
theorem getRecentLatencies_spec (m : Metrics) (count : Int) (h : 0 ≤ count) :
    GetRecentLatencies m count =
      some (m.Latencies.drop (m.Latencies.length - min count.toNat m.Latencies.length)) ∧
    (m.Latencies.drop (m.Latencies.length - min count.toNat m.Latencies.length)).length =
      min count.toNat m.Latencies.length ∧
    (min count.toNat m.Latencies.length = 0 → GetRecentLatencies m count = some []) := by
  have hmain : GetRecentLatencies m count =
      some (m.Latencies.drop (m.Latencies.length - min count.toNat m.Latencies.length)) := by
    unfold GetRecentLatencies
    simp only
    by_cases hgt : count > (m.Latencies.length : Int)
    · rw [if_pos hgt]
      have hmin : min count.toNat m.Latencies.length = m.Latencies.length := by omega
      rw [hmin]
      by_cases h0 : (m.Latencies.length : Int) = 0
      · rw [if_pos h0]
        have hnil : m.Latencies = [] := List.length_eq_zero.mp (by omega)
        rw [hnil]
        rfl
      · rw [if_neg h0]
        have hneg : ¬ (m.Latencies.length : Int) < 0 := by omega
        rw [if_neg hneg]
        simp only [sub_self, Int.toNat_zero, List.drop_zero, Int.toNat_ofNat, Nat.sub_self]
        rw [makeAndCopy_of_length _ _ rfl]
    · rw [if_neg hgt]
      have hmin : min count.toNat m.Latencies.length = count.toNat := by omega
      rw [hmin]
      by_cases h0 : count = 0
      · rw [if_pos h0, h0]
        simp
      · rw [if_neg h0]
        have hneg : ¬ count < 0 := by omega
        rw [if_neg hneg]
        have hstart : ((m.Latencies.length : Int) - count).toNat =
            m.Latencies.length - count.toNat := by omega
        rw [hstart, makeAndCopy_of_length]
        rw [List.length_drop]
        omega
  refine ⟨hmain, ?_, ?_⟩
  · rw [List.length_drop]
    omega
  · intro h0
    rw [hmain, h0]
    simp

/-- Witness of C23: the last element of the sample window. -/
theorem getRecentLatencies_spec_witness :
    (0 : Int) ≤ 1 ∧ GetRecentLatencies sampleWindow 1 = some [10] := by
  refine ⟨by decide, ?_⟩
  rw [(getRecentLatencies_spec sampleWindow 1 (by decide)).1]
  decide

/-- C24: let the field `Latencies` of the receiver be a slice of the heap that lies
within its array.  A call of `GetStats` leaves every array that exists before the call
as it was (its only writes go to the fresh copy), so the latency sequence keeps its
elements and their order, and no field of the receiver is assigned; the returned
`Stats` are those of `GetStats` on the window with that latency sequence; and two
consecutive calls both return, with `Stats` that agree in every field other than
`Throughput`. -/
theorem getStats_read_only (h : Heap) (lat : Slice) (m : Metrics) (now1 now2 : Int)
    (hv1 : lat.arr < h.arrays.length)
    (hv2 : lat.off + lat.len ≤ (h.arrays.getD lat.arr []).length) :
    (∀ a : Nat, a < h.arrays.length →
      (GetStatsOnHeap h lat m now1).1.arrays[a]? = h.arrays[a]?) ∧
    (GetStatsOnHeap h lat m now1).1.read lat = h.read lat ∧
    (GetStatsOnHeap h lat m now1).2 = GetStats { m with Latencies := h.read lat } now1 ∧
    ∃ s1 s2, (GetStatsOnHeap h lat m now1).2 = some s1 ∧
      (GetStatsOnHeap (GetStatsOnHeap h lat m now1).1 lat m now2).2 = some s2 ∧
      s1.P50 = s2.P50 ∧ s1.P95 = s2.P95 ∧ s1.P99 = s2.P99 ∧
      s1.AvgLatency = s2.AvgLatency ∧ s1.MinLatency = s2.MinLatency ∧
      s1.MaxLatency = s2.MaxLatency ∧ s1.ErrorRate = s2.ErrorRate ∧
      s1.AvgSize = s2.AvgSize ∧ s1.TotalRequests = s2.TotalRequests ∧
      s1.TotalErrors = s2.TotalErrors ∧ s1.StatusCode2xx = s2.StatusCode2xx ∧
      s1.StatusCode4xx = s2.StatusCode4xx ∧ s1.StatusCode5xx = s2.StatusCode5xx := by
  obtain ⟨hframe, hlen, hgetD⟩ := GetStatsOnHeap_frame h lat m now1 hv1
  have hread : (GetStatsOnHeap h lat m now1).1.read lat = h.read lat := by
    unfold Heap.read
    rw [hgetD]
  have hstats := GetStatsOnHeap_stats h lat m now1 hv1 hv2
  have hv1b : lat.arr < (GetStatsOnHeap h lat m now1).1.arrays.length := by omega
  have hv2b : lat.off + lat.len ≤
      ((GetStatsOnHeap h lat m now1).1.arrays.getD lat.arr []).length := by
    rw [hgetD]
    exact hv2
  have hstats2 := GetStatsOnHeap_stats (GetStatsOnHeap h lat m now1).1 lat m now2 hv1b hv2b
  rw [hread] at hstats2
  refine ⟨hframe, hread, hstats, ?_⟩
  rw [hstats, hstats2]
  exact GetStats_agree _ now1 now2

/-- Witness of C24: the slice `[30, 10]` of the sample heap; after the call the two
arrays are as before and the sorted copy is a third array. -/
theorem getStats_read_only_witness :
    sampleSlice.arr < sampleHeap.arrays.length ∧
    sampleSlice.off + sampleSlice.len ≤ (sampleHeap.arrays.getD sampleSlice.arr []).length ∧
    (GetStatsOnHeap sampleHeap sampleSlice sampleWindow 0).1.arrays =
      [[7, 7], [5, 30, 10], [10, 30]] ∧
    (GetStatsOnHeap sampleHeap sampleSlice sampleWindow 0).1.read sampleSlice = [30, 10] ∧
    (GetStatsOnHeap sampleHeap sampleSlice sampleWindow 0).1.read sampleSlice =
      sampleHeap.read sampleSlice :=
  ⟨by decide, by decide, by decide, by decide,
    (getStats_read_only sampleHeap sampleSlice sampleWindow 0 1 (by decide) (by decide)).2.1⟩

/-- C25: for a configuration whose endpoints have pairwise distinct URLs,
`AddEndpoint` and `RemoveEndpoint` keep them pairwise distinct; `AddEndpoint` with a
URL that is present leaves the configuration as it was, and with a new URL appends
one entry at the end; `RemoveEndpoint` leaves exactly the entries with another URL, in
their order, and leaves the configuration as it was when the URL is absent. -/
theorem config_endpoints_distinct (c : Config) (url name : String)
    (h : (c.Endpoints.map fun ep => ep.URL).Nodup) :
    ((c.AddEndpoint url name).Endpoints.map fun ep => ep.URL).Nodup ∧
    ((c.RemoveEndpoint url).Endpoints.map fun ep => ep.URL).Nodup ∧
    ((url ∈ c.Endpoints.map fun ep => ep.URL) → c.AddEndpoint url name = c) ∧
    ((url ∉ c.Endpoints.map fun ep => ep.URL) →
      c.AddEndpoint url name =
        { c with Endpoints := c.Endpoints ++ [{ URL := url, Name := name }] }) ∧
    c.RemoveEndpoint url =
      { c with Endpoints := c.Endpoints.filter fun ep => decide (ep.URL ≠ url) } ∧
    ((url ∉ c.Endpoints.map fun ep => ep.URL) → c.RemoveEndpoint url = c) := by
  have hadd1 : (url ∈ c.Endpoints.map fun ep => ep.URL) → c.AddEndpoint url name = c := by
    intro hin
    unfold Config.AddEndpoint
    rw [if_pos ((hasURL_iff _ _).mpr hin)]
  have hadd2 : (url ∉ c.Endpoints.map fun ep => ep.URL) →
      c.AddEndpoint url name =
        { c with Endpoints := c.Endpoints ++ [{ URL := url, Name := name }] } := by
    intro hout
    unfold Config.AddEndpoint
    have hf : ¬ hasURL c.Endpoints url = true := fun e => hout ((hasURL_iff _ _).mp e)
    rw [if_neg hf]
  have hrem : c.RemoveEndpoint url =
      { c with Endpoints := c.Endpoints.filter fun ep => decide (ep.URL ≠ url) } := by
    unfold Config.RemoveEndpoint
    rw [removeFirstURL_eq_filter _ _ h]
  refine ⟨?_, ?_, hadd1, hadd2, hrem, ?_⟩
  · by_cases hin : url ∈ c.Endpoints.map fun ep => ep.URL
    · rw [hadd1 hin]
      exact h
    · rw [hadd2 hin]
      simp only [List.map_append, List.map_cons, List.map_nil]
      rw [List.nodup_append]
      refine ⟨h, List.nodup_singleton _, ?_⟩
      intro x hx hx2
      rw [List.mem_singleton] at hx2
      exact hin (hx2 ▸ hx)
  · rw [hrem]
    exact (h.sublist ((List.filter_sublist _).map _))
  · intro hout
    unfold Config.RemoveEndpoint
    rw [removeFirstURL_of_not_mem _ _ hout]

/-- Witness of C25: removing the first of the two endpoints of the sample
configuration leaves the second. -/
theorem config_endpoints_distinct_witness :
    (sampleConfig.Endpoints.map fun ep => ep.URL).Nodup ∧
    (sampleConfig.RemoveEndpoint "http://localhost:3000").Endpoints =
      [{ URL := "http://localhost:8080", Name := "Backend" }] := by
  refine ⟨by decide, ?_⟩
  rw [(config_endpoints_distinct sampleConfig "http://localhost:3000" "x" (by decide)).2.2.2.2.1]
  decide

/-! ## The claims on the invariants of the window, the tick interval and `Truncate` -/

/-- C26: in every state reached from `NewMetrics` by calls of `Record` and `Reset`,
`TotalErrors` plus the sum of all counts of the histogram is `TotalRequests`, and
`0 ≤ TotalErrors ≤ TotalRequests`. -/
theorem errors_plus_counts (C now0 : Int) (calls : List Call) :
    (run (NewMetrics C now0) calls).TotalErrors +
        ((run (NewMetrics C now0) calls).StatusCodeCounts.map Prod.snd).sum =
      (run (NewMetrics C now0) calls).TotalRequests ∧
    0 ≤ (run (NewMetrics C now0) calls).TotalErrors ∧
    (run (NewMetrics C now0) calls).TotalErrors ≤
      (run (NewMetrics C now0) calls).TotalRequests := by
  refine ⟨run_counts (NewMetrics C now0) calls (by simp [NewMetrics]), ?_⟩
  exact run_errors_le (NewMetrics C now0) calls (by simp [NewMetrics])

/-- C27: in every state reached from `NewMetrics` by calls of `Record` and `Reset`,
the latency sequence and the recent-results sequence have the same length, and at
every index the latency is the `Latency` field of the recent result at that index. -/
theorem latencies_match_results (C now0 : Int) (calls : List Call) :
    (run (NewMetrics C now0) calls).Latencies.length =
      (run (NewMetrics C now0) calls).RecentResults.length ∧
    ∀ i : Nat, (run (NewMetrics C now0) calls).Latencies[i]? =
      ((run (NewMetrics C now0) calls).RecentResults[i]?).map fun r => r.Latency := by
  obtain ⟨-, h⟩ := run_aligned (NewMetrics C now0) calls (by simp [NewMetrics])
  constructor
  · rw [h, List.length_map]
  · intro i
    rw [h, List.getElem?_map]

/-- C28 fails on the code: the rate `2000000000` is at least `1`, so `Start` and
`SetRPS` keep it, but one second divided by it is `0`, for which `time.NewTicker` and
`Ticker.Reset` panic: `Start(2000000000)` on the sample generator panics, and so does
`SetRPS(2000000000)` after `Start(10)`.  For every rate from `1` to `10^9` the
interval is positive. -/
theorem tick_interval_zero :
    tickInterval 2000000000 = some 0 ∧
    NewTicker "a" 0 = none ∧
    (sampleGenerator.Start 2000000000).state.rps = 2000000000 ∧
    (sampleGenerator.Start 2000000000).panicked = true ∧
    ((sampleGenerator.Start 10).state.SetRPS 2000000000).state.rps = 2000000000 ∧
    ((sampleGenerator.Start 10).state.SetRPS 2000000000).panicked = true ∧
    (∀ rps : Int, 1 ≤ rps → rps ≤ 1000000000 →
      ∃ d, tickInterval rps = some d ∧ 0 < d ∧ (NewTicker "a" d).isSome = true) := by
  refine ⟨by decide, by decide, by decide, by decide, by decide, by decide, ?_⟩
  intro rps h1 h2
  have hne : ¬ rps = 0 := by omega
  have hpos : 0 < goDiv Second rps := by
    unfold goDiv Second
    rw [Int.tdiv_eq_ediv (by decide) (by omega)]
    have : (1 : Int) ≤ 1000000000 / rps := Int.le_ediv_of_mul_le (by omega) (by omega)
    omega
  refine ⟨goDiv Second rps, ?_, hpos, ?_⟩
  · unfold tickInterval
    rw [if_neg hne]
  · unfold NewTicker
    have : ¬ goDiv Second rps ≤ 0 := by omega
    rw [if_neg this]
    rfl

/-- C29: for every window whose latency sequence is non-empty, `GetStats` returns
`Stats` whose `MinLatency` is a latency of the window that is at most every latency of
the window, whose `MaxLatency` is a latency of the window that is at least every one,
and with `MinLatency ≤ P50` and `P99 ≤ MaxLatency`. -/
theorem min_max_latency (m : Metrics) (now : Int) (hm : m.Latencies ≠ []) :
    ∃ s, GetStats m now = some s ∧
      s.MinLatency ∈ m.Latencies ∧ (∀ x ∈ m.Latencies, s.MinLatency ≤ x) ∧
      s.MaxLatency ∈ m.Latencies ∧ (∀ x ∈ m.Latencies, x ≤ s.MaxLatency) ∧
      s.MinLatency ≤ s.P50 ∧ s.P99 ≤ s.MaxLatency := by
  obtain ⟨mn, mx, p50, p95, p99, hmn, hmx, h50, -, h99, hs⟩ := GetStats_of_ne m now hm
  have hsorted := sorted_sortAscending m.Latencies
  have hlen := length_sortAscending m.Latencies
  have hmem : ∀ x, x ∈ sortAscending m.Latencies ↔ x ∈ m.Latencies := fun x =>
    List.mem_insertionSort _
  have hidx : ∀ (i : Nat) (x : Int), (sortAscending m.Latencies)[i]? = some x →
      i ≤ m.Latencies.length - 1 := by
    intro i x hx
    obtain ⟨hi, -⟩ := List.getElem?_eq_some_iff.mp hx
    omega
  refine ⟨_, hs, ?_, ?_, ?_, ?_, ?_, ?_⟩
  · exact (hmem mn).mp (List.getElem?_mem hmn)
  · intro x hx
    obtain ⟨i, hi⟩ := List.mem_iff_getElem?.mp ((hmem x).mpr hx)
    exact sorted_getElem?_le hsorted (Nat.zero_le i) hmn hi
  · exact (hmem mx).mp (List.getElem?_mem hmx)
  · intro x hx
    obtain ⟨i, hi⟩ := List.mem_iff_getElem?.mp ((hmem x).mpr hx)
    exact sorted_getElem?_le hsorted (hidx i x hi) hi hmx
  · exact sorted_getElem?_le hsorted (Nat.zero_le _) hmn h50
  · exact sorted_getElem?_le hsorted (hidx _ _ h99) h99 hmx

/-- Witness of C29: the sample window, whose latencies are 20 and 10. -/
theorem min_max_latency_witness :
    sampleWindow.Latencies ≠ [] ∧
    ∃ s, GetStats sampleWindow 0 = some s ∧
      s.MinLatency ∈ sampleWindow.Latencies ∧
      (∀ x ∈ sampleWindow.Latencies, s.MinLatency ≤ x) ∧
      s.MaxLatency ∈ sampleWindow.Latencies ∧
      (∀ x ∈ sampleWindow.Latencies, x ≤ s.MaxLatency) ∧
      s.MinLatency ≤ s.P50 ∧ s.P99 ≤ s.MaxLatency :=
  ⟨by decide, min_max_latency sampleWindow 0 (by decide)⟩

/-- C30 fails on the code: for a 14-byte name and `maxLen = -5`, which
`EndpointList.View` passes for a list 10 columns wide, `Truncate` evaluates `s[:-5]`
and panics; so it does for the empty string and `maxLen = -1`.  For every
`maxLen ≥ 0` it returns: the string itself when `len(s) ≤ maxLen`, and otherwise a
string of at most `maxLen` bytes. -/
theorem truncate_negative_panics :
    Truncate [108, 111, 99, 97, 108, 104, 111, 115, 116, 58, 56, 48, 56, 48] (-5) = none ∧
    Truncate [] (-1) = none ∧
    (∀ (s : List Nat) (maxLen : Int), maxLen < 0 → Truncate s maxLen = none) ∧
    (∀ (s : List Nat) (maxLen : Int), 0 ≤ maxLen →
      ∃ t, Truncate s maxLen = some t ∧
        ((s.length : Int) ≤ maxLen → t = s) ∧
        ((s.length : Int) > maxLen → (t.length : Int) ≤ maxLen)) := by
  refine ⟨by decide, by decide, ?_, ?_⟩
  · intro s maxLen hneg
    unfold Truncate sliceTo
    have h1 : ¬ (s.length : Int) ≤ maxLen := by omega
    have h2 : maxLen ≤ 3 := by omega
    rw [if_neg h1, if_pos h2, if_pos (Or.inl hneg)]
  · intro s maxLen hpos
    unfold Truncate sliceTo
    by_cases h1 : (s.length : Int) ≤ maxLen
    · rw [if_pos h1]
      exact ⟨s, rfl, fun _ => rfl, fun hgt => by omega⟩
    · rw [if_neg h1]
      by_cases h2 : maxLen ≤ 3
      · have h3 : ¬ (maxLen < 0 ∨ maxLen > (s.length : Int)) := by omega
        rw [if_pos h2, if_neg h3]
        refine ⟨_, rfl, fun hle => absurd hle h1, fun _ => ?_⟩
        rw [List.length_take]
        omega
      · have h3 : ¬ (maxLen - 3 < 0 ∨ maxLen - 3 > (s.length : Int)) := by omega
        rw [if_neg h2, if_neg h3]
        refine ⟨_, rfl, fun hle => absurd hle h1, fun _ => ?_⟩
        rw [List.length_append, List.length_take]
        simp only [dots, List.length_cons, List.length_nil]
        omega

end LocalPulse
